import Mathlib

/-!
Verification of the worklist attribute/column subsystem of `mh_utils`
(`mh_utils/worklist_parser/{columns,parser,classes}.py` and `mh_utils/utils.py`),
as a shallow embedding: Python values become an explicit `PyValue` type,
fallible Python code returns `Except PyError`, Python `dict`s become
insertion-ordered association lists.
-/

set_option autoImplicit false

namespace MhUtils

/-- Python exceptions raised by the parsing pipeline. -/
inductive PyError where
  | valueError : String → PyError
  | typeError : String → PyError
  | keyError : String → PyError
  | attributeError : String → PyError
  | indexError : String → PyError
  deriving DecidableEq, Repr

deriving instance DecidableEq for Except

/-- Whitespace characters stripped by Python `str.strip()` (the ASCII subset,
which is all that occurs in these files). -/
def isPySpace (c : Char) : Bool :=
  c == ' ' || c == '\t' || c == '\n' || c == '\r' || c == '\x0b' || c == '\x0c'

/-- Drop trailing characters satisfying `p` (helper for `str.strip()`). -/
def dropTrailWhile (p : Char → Bool) (l : List Char) : List Char :=
  (l.reverse.dropWhile p).reverse

/-- Python `str.strip()` on a character list. -/
def stripChars (l : List Char) : List Char :=
  dropTrailWhile isPySpace (l.dropWhile isPySpace)

/-- `mh_utils.utils.strip_string` applied to a value that is already a string:
`str(val).strip()`. -/
def strip_string (s : String) : String :=
  ⟨stripChars s.data⟩

/-- Value of a list of decimal digit characters, as Python `int` reads them
left to right. -/
def digitsVal (l : List Char) : Nat :=
  l.foldl (fun a c => 10 * a + (c.toNat - 48)) 0

/-- Parse a non-empty all-digit character list to a natural number. -/
def parseNatDigits (l : List Char) : Option Nat :=
  if !l.isEmpty && l.all Char.isDigit then some (digitsVal l) else none

/-- Sign handling of Python `int(s)` after stripping. -/
def pyParseIntChars : List Char → Option Int
  | [] => Option.none
  | c :: rest =>
      if c = '+' then (parseNatDigits rest).map Int.ofNat
      else if c = '-' then (parseNatDigits rest).map (fun k => -Int.ofNat k)
      else (parseNatDigits (c :: rest)).map Int.ofNat

/-- Python `int(s)` on a string: strip whitespace, optional sign, decimal digits. -/
def pyParseInt (s : String) : Option Int :=
  pyParseIntChars (stripChars s.data)

/-- Body of Python `float(s)` after sign removal: digits with an optional
decimal point (exponent and inf/nan forms do not occur in these files). -/
def parseFloatBody (l : List Char) : Option Rat :=
  let ip := l.takeWhile (fun c => c != '.')
  match l.dropWhile (fun c => c != '.') with
  | [] => (parseNatDigits ip).map (fun n => (n : Rat))
  | '.' :: fp =>
      if ip.all Char.isDigit && fp.all Char.isDigit && (!ip.isEmpty || !fp.isEmpty) then
        some ((digitsVal ip : Rat) + (digitsVal fp : Rat) / (10 : Rat) ^ fp.length)
      else none
  | _ => none

/-- Sign handling of Python `float(s)` after stripping. -/
def pyParseFloatChars : List Char → Option Rat
  | [] => Option.none
  | c :: rest =>
      if c = '+' then parseFloatBody rest
      else if c = '-' then (parseFloatBody rest).map Neg.neg
      else parseFloatBody (c :: rest)

/-- Python `float(s)` on a string (decimal forms only, see `parseFloatBody`). -/
def pyParseFloat (s : String) : Option Rat :=
  pyParseFloatChars (stripChars s.data)

/-- A timezone-aware `datetime.datetime`, with the UTC offset in minutes. -/
structure PyDateTime where
  year : Nat
  month : Nat
  day : Nat
  hour : Nat
  minute : Nat
  second : Nat
  tzMinutes : Int
  deriving DecidableEq, Repr

/-- `datetime.datetime.fromtimestamp(0, tz=datetime.timezone.utc)`. -/
def epochDateTime : PyDateTime := ⟨1970, 1, 1, 0, 0, 0, 0⟩

/-- The Python values flowing through the worklist pipeline. Floats are
modelled as rationals: the pipeline only parses decimal text and never does
float arithmetic, so rounding is not exercised. -/
inductive PyValue where
  | str : String → PyValue
  | int : Int → PyValue
  | float : Rat → PyValue
  | bool : Bool → PyValue
  | none : PyValue
  | path : String → PyValue
  | datetime : PyDateTime → PyValue
  deriving DecidableEq, Repr

/-- Python `str(v)`. Only the `str`/`int` cases are exercised by the claims;
the float and datetime renderings are best-effort placeholders. -/
def pyStrOf : PyValue → String
  | .str s => s
  | .int n => toString n
  | .float q => toString q
  | .bool b => if b then "True" else "False"
  | .none => "None"
  | .path p => p
  | .datetime _ => ""

/-- Python truthiness, `bool(v)`. -/
def pyTruthy : PyValue → Bool
  | .str s => !s.isEmpty
  | .int n => n != 0
  | .float q => q != 0
  | .bool b => b
  | .none => false
  | .path _ => true
  | .datetime _ => true

/-! ### Insertion-ordered dictionaries

Python `dict`s keyed by strings: `dInsert` overwrites in place (keeping the
original position of an existing key) and otherwise appends, exactly the
CPython insertion-order semantics. -/

/-- `d[k] = v` on an insertion-ordered association list. -/
def dInsert {α : Type} (k : String) (v : α) : List (String × α) → List (String × α)
  | [] => [(k, v)]
  | (k', v') :: rest => if k' = k then (k, v) :: rest else (k', v') :: dInsert k v rest

/-- `d.get(k)` on an insertion-ordered association list. -/
def dLookup {α : Type} (k : String) : List (String × α) → Option α
  | [] => Option.none
  | (k', v) :: rest => if k' = k then some v else dLookup k rest

/-! ### `mh_utils.utils` -/

/-- `domdf_python_tools.utils.strtobool` restricted to strings, as called from
`element_to_bool` (which always passes `str(val)`): the vocabulary documented
in `mh_utils.utils.element_to_bool` and in the upstream function. -/
def strtobool (s : String) : Except PyError Bool :=
  if (⟨s.data.map Char.toLower⟩ : String) ∈ ["y", "yes", "t", "true", "on", "1"] then .ok true
  else if (⟨s.data.map Char.toLower⟩ : String) ∈ ["n", "no", "f", "false", "off", "0"] then
    .ok false
  else .error (.valueError "invalid truth value")

/-- `mh_utils.utils.element_to_bool`: `val = str(val).strip()`; `"-1"` is
`True`; otherwise defer to `strtobool`. -/
def element_to_bool (v : PyValue) : Except PyError Bool :=
  if strip_string (pyStrOf v) = "-1" then .ok true
  else strtobool (strip_string (pyStrOf v))

/-- `mh_utils.utils.as_path`: falsy values map to `None`, otherwise the
stripped string as a `PureWindowsPath` (or `None` if it strips to empty). -/
def as_path (v : PyValue) : PyValue :=
  if !pyTruthy v then .none
  else
    let s := strip_string (pyStrOf v)
    if s.isEmpty then .none else .path s

/-! ### `mh_utils.worklist_parser.enums` -/

/-- `AttributeType`: System Defined (0), System Used (1), User Added (2). -/
inductive AttributeType where
  | SystemDefined
  | SystemUsed
  | UserAdded
  deriving DecidableEq, Repr

/-- `AttributeType(n)`: enumeration lookup by integer value; any other value
raises (enum `ValueError`, the spec's `InvalidEnumValue`). -/
def AttributeType.ofInt (n : Int) : Except PyError AttributeType :=
  if n = 0 then .ok .SystemDefined
  else if n = 1 then .ok .SystemUsed
  else if n = 2 then .ok .UserAdded
  else .error (.valueError "is not a valid AttributeType")

/-! ### `mh_utils.worklist_parser.columns` -/

/-- The distinct conversion callables used as `Column.dtype` in the source:
`str`, `int`, `float`, `as_path`, `injection_volume`, and `typing.Any`
(the passthrough marker). -/
inductive Dtype where
  | dstr
  | dint
  | dfloat
  | dpath
  | dinjvol
  | dany
  deriving DecidableEq, Repr

/-- Python `int(v)` as a cast (truncating floats toward zero). -/
def pyIntCast (v : PyValue) : Except PyError PyValue :=
  match v with
  | .int n => .ok (.int n)
  | .bool b => .ok (.int (if b then 1 else 0))
  | .float q => .ok (.int (q.num.tdiv q.den))
  | .str s =>
      match pyParseInt s with
      | some n => .ok (.int n)
      | Option.none => .error (.valueError "invalid literal for int() with base 10")
  | _ => .error (.typeError "int() argument must be a string or a number")

/-- Python `float(v)` as a cast. -/
def pyFloatCast (v : PyValue) : Except PyError PyValue :=
  match v with
  | .float q => .ok (.float q)
  | .int n => .ok (.float (n : Rat))
  | .bool b => .ok (.float (if b then 1 else 0))
  | .str s =>
      match pyParseFloat s with
      | some q => .ok (.float q)
      | Option.none => .error (.valueError "could not convert string to float")
  | _ => .error (.typeError "float() argument must be a string or a number")

/-- `mh_utils.worklist_parser.columns.injection_volume`: `-1` (under Python
`==`, so also `-1.0` and `"-1"`) maps to the sentinel `"As Method"`, anything
else is cast with `int`. -/
def injection_volume (v : PyValue) : Except PyError PyValue :=
  if v = .int (-1) ∨ v = .str "-1" ∨ v = .float (-1) then .ok (.str "As Method")
  else pyIntCast v

/-- Application of a `dtype` callable to a value. `typing.Any` is not
callable; both call sites in the source guard against applying it. -/
def applyDtype (d : Dtype) (v : PyValue) : Except PyError PyValue :=
  match d with
  | .dstr => .ok (.str (pyStrOf v))
  | .dint => pyIntCast v
  | .dfloat => pyFloatCast v
  | .dpath => .ok (as_path v)
  | .dinjvol => injection_volume v
  | .dany => .error (.typeError "typing.Any cannot be called")

/-- `mh_utils.worklist_parser.columns.Column` (attrs class, after converters
and validators have run). -/
structure Column where
  name : String
  attribute_id : Int
  attribute_type : AttributeType
  dtype : Dtype
  default_value : PyValue
  field_type : Int
  reorder_id : Int
  deriving DecidableEq, Repr

/-- The `Column(...)` constructor: the `name` converter is `strip_string`;
the `default_value` validator casts the default through `dtype` unless the
dtype is `typing.Any`; the `field_type` validator defaults `field_type` and
`reorder_id` to `attribute_id` when they are `None`. -/
def Column.make (name : String) (attribute_id : Int) (attribute_type : AttributeType)
    (dtype : Dtype) (default_value : PyValue) (field_type : Option Int)
    (reorder_id : Option Int) : Except PyError Column :=
  match (if dtype = .dany then .ok default_value else applyDtype dtype default_value :
      Except PyError PyValue) with
  | .error e => .error e
  | .ok dv =>
      .ok ⟨strip_string name, attribute_id, attribute_type, dtype, dv,
        (match field_type with | some f => f | Option.none => attribute_id),
        (match reorder_id with | some r => r | Option.none => attribute_id)⟩

/-- Python's `isinstance(value, str) and not value` check in `cast_value`. -/
def isEmptyStr (v : PyValue) : Bool :=
  match v with
  | .str s => s.isEmpty
  | _ => false

/-- `Column.cast_value`: an empty string returns the default unchanged; the
passthrough dtype returns the value unchanged; otherwise the dtype is applied. -/
def Column.cast_value (c : Column) (v : PyValue) : Except PyError PyValue :=
  if isEmptyStr v then .ok c.default_value
  else if c.dtype = .dany then .ok v
  else applyDtype c.dtype v

/-- `mh_utils.worklist_parser.classes.Attribute` (attrs class, after
converters have run). -/
structure Attribute where
  attribute_id : Int
  attribute_type : AttributeType
  field_type : Int
  system_name : String
  header_name : String
  data_type : Int
  default_data_value : String
  reorder_id : Int
  show_hide_status : Bool
  column_width : Int
  deriving DecidableEq, Repr

/-- `Column.from_attribute`: `data_type == 8 → str`, `data_type == 5 → float`,
otherwise `typing.Any`; all other fields copied from the attribute. -/
def Column.from_attribute (a : Attribute) : Except PyError Column :=
  let dtype := if a.data_type = 8 then Dtype.dstr
    else if a.data_type = 5 then Dtype.dfloat
    else Dtype.dany
  Column.make a.header_name a.attribute_id a.attribute_type dtype
    (.str a.default_data_value) (some a.field_type) (some a.reorder_id)

/-- The literal arguments of the 28 `Column(...)` entries of the static
`columns` table: name, `attribute_id`, `attribute_type`, `dtype`,
`default_value`, and the optional `reorder_id` (the `field_type` argument is
omitted in every entry). -/
def staticColumnSpecs : List (String × Int × AttributeType × Dtype × PyValue × Option Int) := [
  ("Sample ID", 0, .SystemDefined, .dstr, .str "", Option.none),
  ("Sample Name", 1, .SystemDefined, .dstr, .str "", Option.none),
  ("Rack Code", 2, .SystemDefined, .dstr, .str "", Option.none),
  ("Rack Position", 3, .SystemDefined, .dstr, .str "", Option.none),
  ("Plate Code", 4, .SystemDefined, .dstr, .str "", Option.none),
  ("Plate Position", 5, .SystemDefined, .dstr, .str "", Option.none),
  ("Sample Position", 6, .SystemDefined, .dstr, .str "", Option.none),
  ("Method", 7, .SystemDefined, .dpath, .none, Option.none),
  ("Override DA Method", 8, .SystemDefined, .dpath, .none, Option.none),
  ("Data File", 9, .SystemDefined, .dpath, .none, Option.none),
  ("Sample Type", 10, .SystemDefined, .dstr, .str "Unknown", Option.none),
  ("Method Type", 11, .SystemDefined, .dstr, .str "Method No Override", some 12),
  ("Balance Override", 12, .SystemDefined, .dstr, .str "No Override", some 13),
  ("Inj Vol (µl)", 13, .SystemDefined, .dinjvol, .int 5, some 14),
  ("Equilib Time (min)", 14, .SystemDefined, .dint, .int 0, some 15),
  ("Dilution", 15, .SystemDefined, .dint, .int 1, some 16),
  ("Wt/Vol", 16, .SystemDefined, .dfloat, .int 0, some 17),
  ("Comment", 17, .SystemDefined, .dstr, .str "", some 18),
  ("Barcode", 18, .SystemDefined, .dstr, .str "", some 19),
  ("Reserved1", 19, .SystemDefined, .dstr, .str "", some (-1)),
  ("Reserved2", 20, .SystemDefined, .dstr, .str "", some (-1)),
  ("Reserved3", 21, .SystemDefined, .dstr, .str "", some (-1)),
  ("Reserved4", 22, .SystemDefined, .dfloat, .int 0, some (-1)),
  ("Reserved5", 23, .SystemDefined, .dfloat, .int 0, some (-1)),
  ("Reserved6", 24, .SystemDefined, .dfloat, .int 0, some (-1)),
  ("Level Name", 25, .SystemDefined, .dstr, .str "", some 11),
  ("Sample Group", 26, .SystemDefined, .dstr, .str "", some 20),
  ("Info.", 27, .SystemDefined, .dstr, .str "", some 21)]

/-- Constructing the 28 static columns (each construction may in principle
fail, as in the source where a bad default would raise at import time). -/
def staticColumnsE : Except PyError (List Column) :=
  staticColumnSpecs.mapM (fun t => Column.make t.1 t.2.1 t.2.2.1 t.2.2.2.1 t.2.2.2.2.1
    Option.none t.2.2.2.2.2)

/-- `mh_utils.worklist_parser.columns.columns`: the dict comprehension
`{col.name: col for col in [...]}`. The error arm is unreachable (see
`staticColumnsE_ok`); in the source a failure here would abort module import. -/
def columns : List (String × Column) :=
  match staticColumnsE with
  | .ok cs => cs.foldl (fun m c => dInsert c.name c m) []
  | .error _ => []

/-! ### `mh_utils.worklist_parser.parser` -/

/-- `int(element)` on an objectified XML element: parse its text. -/
def pyIntFromText (s : String) : Except PyError Int :=
  match pyParseInt s with
  | some n => .ok n
  | Option.none => .error (.valueError "invalid literal for int() with base 10")

/-- `float(element)` on an objectified XML element: parse its text. -/
def pyFloatFromText (s : String) : Except PyError Rat :=
  match pyParseFloat s with
  | some q => .ok q
  | Option.none => .error (.valueError "could not convert string to float")

/-- `sample_info_tags`: XML tag name → column display name, in source order. -/
def sample_info_tags : List (String × String) := [
  ("Identifier", "Sample ID"),
  ("Name", "Sample Name"),
  ("RackCode", "Rack Code"),
  ("RackPosition", "Rack Position"),
  ("PlateCode", "Plate Code"),
  ("PlatePosition", "Plate Position"),
  ("SamplePosition", "Sample Position"),
  ("AcqMethod", "Method"),
  ("DAMethod", "Override DA Method"),
  ("DataFileName", "Data File"),
  ("SampleType", "Sample Type"),
  ("MethodExecutionType", "Method Type"),
  ("BalanceType", "Balance Override"),
  ("InjectionVolume", "Inj Vol (µl)"),
  ("EquilibrationTime", "Equilib Time (min)"),
  ("DilutionFactor", "Dilution"),
  ("WeightPerVolume", "Wt/Vol"),
  ("Description", "Comment"),
  ("Barcode", "Barcode"),
  ("Reserved1", "Reserved1"),
  ("Reserved2", "Reserved2"),
  ("Reserved3", "Reserved3"),
  ("Reserved4", "Reserved4"),
  ("Reserved5", "Reserved5"),
  ("Reserved6", "Reserved6"),
  ("CalibLevelName", "Level Name"),
  ("SampleGroup", "Sample Group"),
  ("SampleInformation", "Info.")]

/-- Whether a year is a Gregorian leap year. -/
def isLeapYear (y : Nat) : Bool :=
  (y % 4 == 0 && y % 100 != 0) || y % 400 == 0

/-- Days in a month, as `datetime.datetime` validates them. -/
def daysInMonth (y mo : Nat) : Nat :=
  if mo = 2 then (if isLeapYear y then 29 else 28)
  else if mo = 4 ∨ mo = 6 ∨ mo = 9 ∨ mo = 11 then 30
  else 31

/-- Value of a two-digit group. -/
def digitPair (a b : Char) : Nat :=
  (a.toNat - 48) * 10 + (b.toNat - 48)

/-- Modelled from the spec: the external
`datetime.datetime.strptime(_, "%Y-%m-%dT%H:%M:%S%z")` call (stdlib, not part
of this repository), on the fixed-width 24-character form
`YYYY-MM-DDTHH:MM:SS±HHMM` that `parse_datetime` hands it after offset
normalisation and sub-second truncation; field ranges are validated as the
stdlib does (calendar day, hour/minute/second bounds, offset below 24 h). -/
def strptimeYmdHMSz (l : List Char) : Except PyError PyDateTime :=
  match l with
  | [y1, y2, y3, y4, '-', mo1, mo2, '-', d1, d2, 'T',
     h1, h2, ':', mi1, mi2, ':', s1, s2, sg, z1, z2, z3, z4] =>
      if ([y1, y2, y3, y4, mo1, mo2, d1, d2, h1, h2, mi1, mi2, s1, s2,
           z1, z2, z3, z4].all Char.isDigit) && (sg == '+' || sg == '-') then
        let y := digitsVal [y1, y2, y3, y4]
        let mo := digitPair mo1 mo2
        let d := digitPair d1 d2
        let h := digitPair h1 h2
        let mi := digitPair mi1 mi2
        let s := digitPair s1 s2
        let zh := digitPair z1 z2
        let zm := digitPair z3 z4
        if 1 ≤ y ∧ 1 ≤ mo ∧ mo ≤ 12 ∧ 1 ≤ d ∧ d ≤ daysInMonth y mo ∧ h ≤ 23 ∧
            mi ≤ 59 ∧ s ≤ 59 ∧ zm ≤ 59 ∧ zh * 60 + zm < 1440 then
          .ok ⟨y, mo, d, h, mi, s,
            if sg == '-' then -((zh * 60 + zm : Nat) : Int) else ((zh * 60 + zm : Nat) : Int)⟩
        else .error (.valueError "time data does not match format")
      else .error (.valueError "time data does not match format")
  | _ => .error (.valueError "time data does not match format")

/-- The colon-normalisation step of `parse_datetime`: when the character
three from the end is `:` (a `+HH:MM` offset), splice it out. -/
def colonNormalize (t : List Char) : List Char :=
  if t[t.length - 3]? = some ':' then t.take (t.length - 3) ++ t.drop (t.length - 2)
  else t

/-- The `the_date[:19] + the_date[-5:]` slice of `parse_datetime`, applied to
the colon-normalised text: discards any sub-second digits. -/
def pyDatetimeSlice (t : List Char) : List Char :=
  (colonNormalize t).take 19 ++
    (colonNormalize t).drop ((colonNormalize t).length - 5)

/-- `mh_utils.worklist_parser.parser.parse_datetime`: strip; empty input
yields the UTC epoch; otherwise remove a colon three characters from the end
(`+HH:MM` → `+HHMM`), keep the first 19 and last 5 characters (discarding any
sub-second digits), and parse with `strptime`. Indexing `the_date[-3]` on a
stripped string shorter than 3 characters raises `IndexError` as in Python. -/
def parse_datetime (s : String) : Except PyError PyDateTime :=
  if (stripChars s.data).isEmpty then .ok epochDateTime
  else if (stripChars s.data).length < 3 then
    .error (.indexError "string index out of range")
  else strptimeYmdHMSz (pyDatetimeSlice (stripChars s.data))

/-- A `SampleDataArray` child element. -/
structure SDAElement where
  AttributeID : String
  DataValue : String
  deriving DecidableEq, Repr

/-- A `SampleInfo` XML element: the four always-read children, the named
children looked up through `sample_info_tags` (an XML element's named
children, as a tag → text mapping), and the `SampleDataArray` children. -/
structure SampleInfoElement where
  AcqTime : String
  SampleLockedRunMode : String
  RunCompletedFlag : String
  Label : String
  tags : List (String × String)
  sampleDataArrays : List SDAElement
  deriving DecidableEq, Repr

/-- `getattr(element, tag_name)`: a missing child raises `AttributeError`. -/
def getTag (e : SampleInfoElement) (tag : String) : Except PyError String :=
  match dLookup tag e.tags with
  | some s => .ok s
  | Option.none => .error (.attributeError tag)

/-- The loop over `sample_info_tags` in `parse_sample_info`: look the column
up in the static table and cast the stripped child text. -/
def staticTagLoop : List (String × String) → SampleInfoElement →
    List (String × PyValue) → Except PyError (List (String × PyValue))
  | [], _, si => .ok si
  | (tag_name, attr_name) :: rest, e, si => do
      let column ← match dLookup attr_name columns with
        | some c => Except.ok c
        | Option.none => Except.error (PyError.keyError attr_name)
      let raw ← getTag e tag_name
      let v ← column.cast_value (.str (strip_string raw))
      staticTagLoop rest e (dInsert attr_name v si)

/-- The inner loop of `parse_sample_info` over `user_columns.items()` for one
`SampleDataArray` element: every user column whose `attribute_id` equals the
element's `AttributeID` receives the cast `DataValue` under its display name. -/
def sdaInner (t : SDAElement) : List (String × Column) → List (String × PyValue) →
    Except PyError (List (String × PyValue))
  | [], si => .ok si
  | (n, c) :: rest, si => do
      let aid ← pyIntFromText t.AttributeID
      if c.attribute_id = aid then do
        let v ← c.cast_value (.str (strip_string t.DataValue))
        sdaInner t rest (dInsert n v si)
      else sdaInner t rest si

/-- The outer loop of `parse_sample_info` over the `SampleDataArray` children. -/
def sdaLoop : List SDAElement → List (String × Column) → List (String × PyValue) →
    Except PyError (List (String × PyValue))
  | [], _, si => .ok si
  | t :: rest, uc, si => do
      let si' ← sdaInner t uc si
      sdaLoop rest uc si'

/-- `mh_utils.worklist_parser.parser.parse_sample_info`: the four fixed
fields are inserted first, then the 28 static tags, then the
`SampleDataArray` loop runs over `user_columns`. -/
def parse_sample_info (e : SampleInfoElement) (user_columns : List (String × Column)) :
    Except PyError (List (String × PyValue)) := do
  let acq ← parse_datetime e.AcqTime
  let slrm ← element_to_bool (.str e.SampleLockedRunMode)
  let rc ← element_to_bool (.str e.RunCompletedFlag)
  let si ← staticTagLoop sample_info_tags e
    (dInsert "Label" (.str (strip_string e.Label))
      (dInsert "Run Completed" (.bool rc)
        (dInsert "Sample Locked Run Mode" (.bool slrm)
          (dInsert "Acquired Time" (.datetime acq) []))))
  sdaLoop e.sampleDataArrays user_columns si

/-! ### `mh_utils.worklist_parser.classes` -/

/-- A macro element's six named children. -/
structure MacroElement where
  ProjectName : String
  ProcedureName : String
  InputParameter : String
  OutputDataType : String
  OutputParameter : String
  DisplayString : String
  deriving DecidableEq, Repr

/-- `mh_utils.worklist_parser.classes.Macro` after converters. -/
structure Macro where
  project_name : String
  procedure_name : String
  input_parameter : String
  output_data_type : Int
  output_parameter : String
  display_string : String
  deriving DecidableEq, Repr

/-- `Macro.from_xml`. -/
def Macro.from_xml (e : MacroElement) : Except PyError Macro := do
  let odt ← pyIntFromText e.OutputDataType
  .ok ⟨strip_string e.ProjectName, strip_string e.ProcedureName,
    strip_string e.InputParameter, odt, strip_string e.OutputParameter,
    strip_string e.DisplayString⟩

/-- The named children of the `Params` element read by `parse_params`. -/
structure ParamsElement where
  OperatorName : String
  RunType : String
  MethodExecutionType : String
  AcqMethodPath : String
  DAMethodPath : String
  ExportOutputPath : String
  CombineExportOutput : String
  CombinedExportOutputFile : String
  CombineOutputByPlate : String
  SynchronousExecution : String
  StopWorklistOnDAError : String
  OverlappedInjections : String
  UseBarcode : String
  InjectOnBarcodeMismatch : String
  ThresholdDiskSpace : String
  ReadyTimeOut : String
  ClearRunCheckBox : String
  UsePreWorklistMacro : String
  PreWorklistMacro : MacroElement
  UsePostWorklistMacro : String
  PostWorklistMacro : MacroElement
  RunAcqCleanMacroOnError : String
  AcqCleanMacro : MacroElement
  UsePostAnalysisMacro : String
  PostAnalysisMacro : MacroElement
  Description : String
  PlateBarCodes : String
  deriving DecidableEq, Repr

/-- The params mapping built by `parse_params`, with its fixed keys as fields
in dict insertion order. `plate_bar_codes` stores the raw element (its text
here), as the source stores the element unconverted. -/
structure Params where
  operator_name : String
  run_type : Int
  method_execution_type : String
  acq_method_path : PyValue
  da_method_path : PyValue
  export_output_path : PyValue
  combine_export_output : Bool
  combined_export_output_file : PyValue
  combine_output_by_plate : Bool
  synchronous_execution : Bool
  stop_worklist_on_da_error : Bool
  overlapped_injections : Bool
  use_barcode : Bool
  inject_on_barcode_mismatch : Bool
  threshold_disk_space : Int
  ready_time_out : Int
  clear_run_checkbox : Bool
  use_pre_worklist_macro : Bool
  pre_worklist_macro : Macro
  use_post_worklist_macro : Bool
  post_worklist_macro : Macro
  run_acq_clean_macro_on_error : Bool
  acq_clean_macro : Macro
  use_post_analysis_macro : Bool
  post_analysis_macro : Macro
  description : String
  plate_bar_codes : String
  deriving DecidableEq, Repr

/-- `mh_utils.worklist_parser.parser.parse_params`. -/
def parse_params (e : ParamsElement) : Except PyError Params := do
  let run_type ← pyIntFromText e.RunType
  let combine_export_output ← element_to_bool (.str e.CombineExportOutput)
  let combine_output_by_plate ← element_to_bool (.str e.CombineOutputByPlate)
  let synchronous_execution ← element_to_bool (.str e.SynchronousExecution)
  let stop_worklist_on_da_error ← element_to_bool (.str e.StopWorklistOnDAError)
  let overlapped_injections ← element_to_bool (.str e.OverlappedInjections)
  let use_barcode ← element_to_bool (.str e.UseBarcode)
  let inject_on_barcode_mismatch ← element_to_bool (.str e.InjectOnBarcodeMismatch)
  let threshold_disk_space ← pyIntFromText e.ThresholdDiskSpace
  let ready_time_out ← pyIntFromText e.ReadyTimeOut
  let clear_run_checkbox ← element_to_bool (.str e.ClearRunCheckBox)
  let use_pre_worklist_macro ← element_to_bool (.str e.UsePreWorklistMacro)
  let pre_worklist_macro ← Macro.from_xml e.PreWorklistMacro
  let use_post_worklist_macro ← element_to_bool (.str e.UsePostWorklistMacro)
  let post_worklist_macro ← Macro.from_xml e.PostWorklistMacro
  let run_acq_clean_macro_on_error ← element_to_bool (.str e.RunAcqCleanMacroOnError)
  let acq_clean_macro ← Macro.from_xml e.AcqCleanMacro
  let use_post_analysis_macro ← element_to_bool (.str e.UsePostAnalysisMacro)
  let post_analysis_macro ← Macro.from_xml e.PostAnalysisMacro
  .ok ⟨e.OperatorName, run_type, e.MethodExecutionType,
    as_path (.str e.AcqMethodPath), as_path (.str e.DAMethodPath),
    as_path (.str e.ExportOutputPath), combine_export_output,
    as_path (.str e.CombinedExportOutputFile), combine_output_by_plate,
    synchronous_execution, stop_worklist_on_da_error, overlapped_injections,
    use_barcode, inject_on_barcode_mismatch, threshold_disk_space,
    ready_time_out, clear_run_checkbox, use_pre_worklist_macro,
    pre_worklist_macro, use_post_worklist_macro, post_worklist_macro,
    run_acq_clean_macro_on_error, acq_clean_macro, use_post_analysis_macro,
    post_analysis_macro, strip_string e.Description, e.PlateBarCodes⟩

/-- The ten named children of an `Attributes` element. -/
structure AttrElement where
  AttributeID : String
  AttributeType : String
  FieldType : String
  SystemName : String
  HeaderName : String
  DataType : String
  DefaultDataValue : String
  ReorderID : String
  ShowHideStatus : String
  ColumnWidth : String
  deriving DecidableEq, Repr

/-- `Attribute.from_xml`: converters in attrs field order (ints via `int`,
the type via enumeration lookup, strings stripped, the boolean via
`element_to_bool`). -/
def Attribute.from_xml (e : AttrElement) : Except PyError Attribute := do
  let aid ← pyIntFromText e.AttributeID
  let atInt ← pyIntFromText e.AttributeType
  let aty ← AttributeType.ofInt atInt
  let ft ← pyIntFromText e.FieldType
  let dt ← pyIntFromText e.DataType
  let ro ← pyIntFromText e.ReorderID
  let shs ← element_to_bool (.str e.ShowHideStatus)
  let cw ← pyIntFromText e.ColumnWidth
  .ok ⟨aid, aty, ft, strip_string e.SystemName, strip_string e.HeaderName, dt,
    strip_string e.DefaultDataValue, ro, shs, cw⟩

/-- The `Checksum` element's attributes. -/
structure ChecksumElement where
  SchemaVersion : String
  ALGO_VERSION : String
  HASHCODE : String
  deriving DecidableEq, Repr

/-- `mh_utils.worklist_parser.classes.Checksum` after converters. -/
structure Checksum where
  SchemaVersion : Int
  ALGO_VERSION : Int
  HASHCODE : String
  deriving DecidableEq, Repr

/-- `Checksum.from_xml`. -/
def Checksum.from_xml (e : ChecksumElement) : Except PyError Checksum := do
  let sv ← pyIntFromText e.SchemaVersion
  let av ← pyIntFromText e.ALGO_VERSION
  .ok ⟨sv, av, e.HASHCODE⟩

/-- Hex digit character for a value below 16 (lowercase, as `uuid.UUID.__str__`). -/
def hexDigitChar (d : Nat) : Char :=
  if d < 10 then Char.ofNat (48 + d) else Char.ofNat (87 + d)

/-- `w` lowercase hex digits of `n`, big-endian, zero padded. -/
def toHexPad : Nat → Nat → List Char
  | 0, _ => []
  | w + 1, n => toHexPad w (n / 16) ++ [hexDigitChar (n % 16)]

/-- `str(uuid.UUID)`: the canonical 8-4-4-4-12 lowercase hyphenated form of
the 128-bit value. -/
def uuidStr (n : Nat) : String :=
  ⟨(toHexPad 32 n).take 8 ++
    ('-' :: (((toHexPad 32 n).drop 8).take 4 ++
      ('-' :: (((toHexPad 32 n).drop 12).take 4 ++
        ('-' :: (((toHexPad 32 n).drop 16).take 4 ++
          ('-' :: (toHexPad 32 n).drop 20)))))))⟩

/-- Numeric value of a hex digit character. -/
def hexDigitVal (c : Char) : Nat :=
  if c.isDigit then c.toNat - 48 else c.toLower.toNat - 87

/-- Whether a character is a hexadecimal digit. -/
def isHexDigitChar (c : Char) : Bool :=
  c.isDigit || ('a' ≤ c.toLower && c.toLower ≤ 'f')

/-- Modelled from the spec: the external `uuid.UUID(str)` constructor (stdlib,
not part of this repository) — hyphens are removed and the remaining 32 hex
digits are read as a 128-bit integer; anything else raises `ValueError`. -/
def pyParseUUID (s : String) : Except PyError Nat :=
  let h := s.data.filter (fun c => c != '-')
  if h.length == 32 && h.all isHexDigitChar then
    .ok (h.foldl (fun a c => 16 * a + hexDigitVal c) 0)
  else .error (.valueError "badly formed hexadecimal UUID string")

/-- `mh_utils.worklist_parser.classes.JobData`. The `id` holds the UUID's
128-bit integer value. -/
structure JobData where
  id : Nat
  job_type : Int
  run_status : Int
  sample_info : List (String × PyValue)
  deriving DecidableEq, Repr

/-- The `JobData.__init__` body: a falsy (empty) `sample_info` becomes `{}`. -/
def JobData.make (id : Nat) (job_type run_status : Int)
    (sample_info : List (String × PyValue)) : JobData :=
  ⟨id, job_type, run_status, if sample_info.isEmpty then [] else sample_info⟩

/-- The dictionary produced by `JobData.to_dict`, with its four fixed keys as
fields: `id` is rendered with `str`, the rest are the raw slots. -/
structure JobDataDict where
  id : String
  job_type : Int
  run_status : Int
  sample_info : List (String × PyValue)
  deriving DecidableEq, Repr

/-- `JobData.to_dict`. -/
def JobData.to_dict (j : JobData) : JobDataDict :=
  ⟨uuidStr j.id, j.job_type, j.run_status, j.sample_info⟩

/-- `Dictable.__eq__` as inherited by `JobData`: `is_match_with` over the two
`to_dict` dictionaries, which for these plain string/int/dict values is
dictionary equality (both dictionaries always carry the same four keys in the
same order). -/
def JobData.pyEq (a b : JobData) : Prop :=
  a.to_dict = b.to_dict

/-- A `JobData` XML element. -/
structure JobDataElement where
  ID : String
  JobType : String
  RunStatus : String
  SampleInfo : SampleInfoElement
  deriving DecidableEq, Repr

/-- `JobData.from_xml`: Python evaluates `parse_sample_info` while building
the call, then `JobData.__init__` runs the `UUID`/`int` conversions. -/
def JobData.from_xml (e : JobDataElement) (user_columns : List (String × Column)) :
    Except PyError JobData := do
  let si ← parse_sample_info e.SampleInfo user_columns
  let id ← pyParseUUID e.ID
  let jt ← pyIntFromText e.JobType
  let rs ← pyIntFromText e.RunStatus
  .ok (JobData.make id jt rs si)

/-- The `WorklistInfo` element: `LockedRunMode`, `Instrument`, `Params`, the
`Attributes` children of `AttributeInformation`, and the `JobData` children of
`JobDataList`. -/
structure WorklistInfoElement where
  LockedRunMode : String
  Instrument : String
  Params : ParamsElement
  AttributeInformation : List AttrElement
  JobDataList : List JobDataElement
  deriving DecidableEq, Repr

/-- The root worklist element. -/
structure WorklistElement where
  Version : String
  Checksum : ChecksumElement
  WorklistInfo : WorklistInfoElement
  deriving DecidableEq, Repr

/-- `mh_utils.worklist_parser.classes.Worklist`. -/
structure Worklist where
  version : Rat
  locked_run_mode : Bool
  instrument_name : String
  params : Params
  user_columns : List (String × Column)
  jobs : List JobData
  checksum : Checksum
  deriving DecidableEq, Repr

/-- The `LockedRunMode` comparison in `Worklist.from_xml`: the objectified
element compares numerically (`== -1`, `== 0`); any other value raises
`ValueError("Unknown value for 'LockedRunMode'")`. -/
def decodeLockedRunMode (s : String) : Except PyError Bool :=
  match pyParseInt s with
  | some n =>
      if n = -1 then .ok true
      else if n = 0 then .ok false
      else .error (.valueError "Unknown value for 'LockedRunMode'")
  | Option.none =>
      match pyParseFloat s with
      | some q =>
          if q = -1 then .ok true
          else if q = 0 then .ok false
          else .error (.valueError "Unknown value for 'LockedRunMode'")
      | Option.none => .error (.valueError "Unknown value for 'LockedRunMode'")

/-- The attribute-discovery loop of `Worklist.from_xml`: decode each
`Attributes` element; a non-`SystemDefined` attribute additionally derives a
`Column` inserted into `user_columns` keyed by its name. -/
def attrLoop : List AttrElement → List Attribute → List (String × Column) →
    Except PyError (List Attribute × List (String × Column))
  | [], attrs, uc => .ok (attrs, uc)
  | e :: rest, attrs, uc => do
      let a ← Attribute.from_xml e
      if a.attribute_type ≠ AttributeType.SystemDefined then do
        let c ← Column.from_attribute a
        attrLoop rest (attrs ++ [a]) (dInsert c.name c uc)
      else attrLoop rest (attrs ++ [a]) uc

/-- `Worklist.from_xml`. -/
def Worklist.from_xml (r : WorklistElement) : Except PyError Worklist := do
  let version ← pyFloatFromText r.Version
  let checksum ← Checksum.from_xml r.Checksum
  let locked_run_mode ← decodeLockedRunMode r.WorklistInfo.LockedRunMode
  let params ← parse_params r.WorklistInfo.Params
  let (_attributes_list, user_columns) ← attrLoop r.WorklistInfo.AttributeInformation [] []
  let jobs ← r.WorklistInfo.JobDataList.mapM (fun j => JobData.from_xml j user_columns)
  .ok ⟨version, locked_run_mode, r.WorklistInfo.Instrument, params, user_columns,
    jobs, checksum⟩

/-- `Worklist.as_dataframe`: headers are the static column names followed by
the user column names; each job contributes one row of `sample_info[header]`
lookups (a missing key raises `KeyError`). -/
def Worklist.as_dataframe (wl : Worklist) : Except PyError (List String × List (List PyValue)) :=
  (wl.jobs.mapM (fun (job : JobData) =>
    ((columns.map Prod.fst) ++ (wl.user_columns.map Prod.fst)).mapM (fun h =>
      match dLookup h job.sample_info with
      | some v => Except.ok v
      | Option.none => Except.error (PyError.keyError h)))).map
    (fun data => ((columns.map Prod.fst) ++ (wl.user_columns.map Prod.fst), data))

/-! ### Auxiliary definitions used by the theorem statements -/

/-- The decimal digit string of a natural number (its "decimal string form"). -/
def decimalString (n : Nat) : String :=
  if n = 0 then "0" else ⟨(Nat.digits 10 n).reverse.map (fun d => Char.ofNat (48 + d))⟩

/-- The last `SampleDataArray` element (in document order) whose `AttributeID`
reads as the given column's `attribute_id`. -/
def lastMatch (c : Column) : List SDAElement → Option SDAElement
  | [] => Option.none
  | t :: rest =>
      match lastMatch c rest with
      | some u => some u
      | Option.none =>
          if pyParseInt t.AttributeID = some c.attribute_id then some t else Option.none

/-- The spec's header list: the 28 static display names in declared order. -/
def specStaticHeaderNames : List String := [
  "Sample ID", "Sample Name", "Rack Code", "Rack Position", "Plate Code",
  "Plate Position", "Sample Position", "Method", "Override DA Method",
  "Data File", "Sample Type", "Method Type", "Balance Override",
  "Inj Vol (µl)", "Equilib Time (min)", "Dilution", "Wt/Vol", "Comment",
  "Barcode", "Reserved1", "Reserved2", "Reserved3", "Reserved4", "Reserved5",
  "Reserved6", "Level Name", "Sample Group", "Info."]

/-! ### Concrete fixtures used by witness theorems -/

/-- An all-empty macro element. -/
def sampleMacroElement : MacroElement := ⟨"", "", "", "0", "", ""⟩

/-- A well-formed `Params` element. -/
def sampleParamsElement : ParamsElement :=
  ⟨"op", "0", "Std", "", "", "", "0", "", "0", "0", "0", "0", "0", "0", "100",
    "30", "0", "0", sampleMacroElement, "0", sampleMacroElement, "0",
    sampleMacroElement, "0", sampleMacroElement, " desc ", ""⟩

/-- The decoded form of `sampleParamsElement`. -/
def sampleParams : Params :=
  ⟨"op", 0, "Std", .none, .none, .none, false, .none, false, false, false,
    false, false, false, 100, 30, false, false, ⟨"", "", "", 0, "", ""⟩, false,
    ⟨"", "", "", 0, "", ""⟩, false, ⟨"", "", "", 0, "", ""⟩, false,
    ⟨"", "", "", 0, "", ""⟩, "desc", ""⟩

/-- A user-added `Attributes` element. -/
def sampleUserAttrElement : AttrElement :=
  ⟨"100", "2", "45", "UserCol", " My Column ", "8", "dflt", "100", "False", "80"⟩

/-- A system-defined `Attributes` element. -/
def sampleSystemAttrElement : AttrElement :=
  ⟨"3", "0", "3", "RackPos", "Rack Position", "8", "", "3", "True", "60"⟩

/-- The decoded form of `sampleUserAttrElement`. -/
def sampleUserAttribute : Attribute :=
  ⟨100, .UserAdded, 45, "UserCol", "My Column", 8, "dflt", 100, false, 80⟩

/-- The column derived from `sampleUserAttribute`. -/
def sampleUserColumn : Column :=
  ⟨"My Column", 100, .UserAdded, .dstr, .str "dflt", 45, 100⟩

/-- A well-formed worklist root element with one user-added and one
system-defined attribute and no jobs. -/
def sampleRoot : WorklistElement :=
  ⟨"2", ⟨"1", "1", "ABCD"⟩,
    ⟨"-1", "Instr", sampleParamsElement,
      [sampleUserAttrElement, sampleSystemAttrElement], []⟩⟩

/-- `sampleRoot` with `LockedRunMode` set to `7`. -/
def sampleRootBadLock : WorklistElement :=
  ⟨"2", ⟨"1", "1", "ABCD"⟩,
    ⟨"7", "Instr", sampleParamsElement,
      [sampleUserAttrElement, sampleSystemAttrElement], []⟩⟩

/-- The worklist assembled from `sampleRoot`. -/
def sampleWorklist : Worklist :=
  ⟨2, true, "Instr", sampleParams, [("My Column", sampleUserColumn)], [],
    ⟨1, 1, "ABCD"⟩⟩

/-- A worklist value with no user columns and no jobs. -/
def sampleWorklistNoUser : Worklist :=
  ⟨2, true, "Instr", sampleParams, [], [], ⟨1, 1, "ABCD"⟩⟩

/-- A user column with `attribute_id` 100. -/
def sampleColumnA : Column := ⟨"ColA", 100, .UserAdded, .dstr, .str "", 45, 100⟩

/-- A second user column sharing `attribute_id` 100. -/
def sampleColumnB : Column := ⟨"ColB", 100, .SystemUsed, .dstr, .str "", 38, 101⟩

/-- Two user columns sharing one `attribute_id`. -/
def sampleUC : List (String × Column) := [("ColA", sampleColumnA), ("ColB", sampleColumnB)]

/-- All 28 static tags mapped to empty text. -/
def sampleTags : List (String × String) := sample_info_tags.map (fun p => (p.1, ""))

/-- A `SampleInfo` element with two `SampleDataArray` children carrying the
same `AttributeID`. -/
def sampleSampleInfoElement : SampleInfoElement :=
  ⟨"", "0", "0", "lab", sampleTags, [⟨"100", "v1"⟩, ⟨"100", "v2"⟩]⟩

/-- The record decoded from `sampleSampleInfoElement` with `sampleUC`. -/
def sampleSampleInfo : List (String × PyValue) := [
  ("Acquired Time", .datetime ⟨1970, 1, 1, 0, 0, 0, 0⟩),
  ("Sample Locked Run Mode", .bool false),
  ("Run Completed", .bool false),
  ("Label", .str "lab"),
  ("Sample ID", .str ""),
  ("Sample Name", .str ""),
  ("Rack Code", .str ""),
  ("Rack Position", .str ""),
  ("Plate Code", .str ""),
  ("Plate Position", .str ""),
  ("Sample Position", .str ""),
  ("Method", .none),
  ("Override DA Method", .none),
  ("Data File", .none),
  ("Sample Type", .str "Unknown"),
  ("Method Type", .str "Method No Override"),
  ("Balance Override", .str "No Override"),
  ("Inj Vol (µl)", .int 5),
  ("Equilib Time (min)", .int 0),
  ("Dilution", .int 1),
  ("Wt/Vol", .float 0),
  ("Comment", .str ""),
  ("Barcode", .str ""),
  ("Reserved1", .str ""),
  ("Reserved2", .str ""),
  ("Reserved3", .str ""),
  ("Reserved4", .float 0),
  ("Reserved5", .float 0),
  ("Reserved6", .float 0),
  ("Level Name", .str ""),
  ("Sample Group", .str ""),
  ("Info.", .str ""),
  ("ColA", .str "v2"),
  ("ColB", .str "v2")]

/-! ## Theorems

First general-purpose lemmas about the dictionary and string-stripping
models, then one theorem per claim (with witnesses). -/

theorem dLookup_dInsert_self {α : Type} (k : String) (v : α) (m : List (String × α)) :
    dLookup k (dInsert k v m) = some v := by
  induction m with
  | nil => simp [dInsert, dLookup]
  | cons p rest ih =>
      obtain ⟨k', v'⟩ := p
      by_cases h : k' = k
      · simp [dInsert, dLookup, h]
      · simp [dInsert, dLookup, h, ih]

theorem dLookup_dInsert_ne {α : Type} {k k' : String} (v : α) (m : List (String × α))
    (h : k ≠ k') : dLookup k (dInsert k' v m) = dLookup k m := by
  induction m with
  | nil => simp [dInsert, dLookup, Ne.symm h]
  | cons p rest ih =>
      obtain ⟨k₀, v₀⟩ := p
      by_cases h₀ : k₀ = k'
      · subst h₀
        simp [dInsert, dLookup, Ne.symm h]
      · by_cases h₁ : k₀ = k
        · simp [dInsert, dLookup, h₀, h₁, h]
        · simp [dInsert, dLookup, h₀, h₁, ih]

theorem mem_dInsert {α : Type} {p : String × α} {k : String} {v : α}
    {m : List (String × α)} (h : p ∈ dInsert k v m) : p = (k, v) ∨ p ∈ m := by
  induction m with
  | nil => simpa [dInsert] using h
  | cons q rest ih =>
      obtain ⟨k₀, v₀⟩ := q
      by_cases h₀ : k₀ = k
      · simp only [dInsert, if_pos h₀, List.mem_cons] at h
        rcases h with h | h
        · exact Or.inl h
        · exact Or.inr (List.mem_cons_of_mem _ h)
      · simp only [dInsert, if_neg h₀, List.mem_cons] at h
        rcases h with h | h
        · exact Or.inr (by simp [h])
        · rcases ih h with h' | h'
          · exact Or.inl h'
          · exact Or.inr (List.mem_cons_of_mem _ h')

theorem dLookup_isSome_dInsert {α : Type} {k : String} (k' : String) (v : α)
    {m : List (String × α)} (h : (dLookup k m).isSome) :
    (dLookup k (dInsert k' v m)).isSome := by
  by_cases hk : k = k'
  · subst hk; simp [dLookup_dInsert_self]
  · rwa [dLookup_dInsert_ne v m hk]

theorem dropWhile_of_all_false {p : Char → Bool} {l : List Char}
    (h : ∀ c ∈ l, p c = false) : l.dropWhile p = l := by
  induction l with
  | nil => rfl
  | cons c t ih =>
      have hc := h c (List.mem_cons_self c t)
      simp only [List.dropWhile_cons, hc, Bool.false_eq_true, if_false]

theorem dropWhile_dropWhile {p : Char → Bool} (l : List Char) :
    (l.dropWhile p).dropWhile p = l.dropWhile p := by
  induction l with
  | nil => rfl
  | cons c t ih =>
      by_cases hc : p c
      · simp [List.dropWhile_cons, hc, ih]
      · simp [List.dropWhile_cons, hc]

/-- The head of a non-empty `dropWhile` result does not satisfy `p`. -/
theorem dropWhile_head_not {p : Char → Bool} (l : List Char) :
    l.dropWhile p = [] ∨ ∃ c t, l.dropWhile p = c :: t ∧ p c = false := by
  induction l with
  | nil => exact Or.inl rfl
  | cons c t ih =>
      by_cases hc : p c
      · simpa [List.dropWhile_cons, hc] using ih
      · exact Or.inr ⟨c, t, by simp [List.dropWhile_cons, hc], by simpa using hc⟩

theorem dropWhile_cons_head_false {p : Char → Bool} {c : Char} (t : List Char)
    (hc : p c = false) : (c :: t).dropWhile p = c :: t := by
  simp [List.dropWhile_cons, hc]

/-- Dropping trailing characters keeps a head that fails `p`. -/
theorem dropTrailWhile_head {p : Char → Bool} {c : Char} (t : List Char)
    (hc : p c = false) : dropTrailWhile p (c :: t) = c :: dropTrailWhile p t := by
  unfold dropTrailWhile
  rcases dropWhile_head_not (p := p) t.reverse with h | ⟨c', t', h, hc'⟩
  · have h2 : (t.reverse ++ [c]).dropWhile p = [c] := by
      rw [List.dropWhile_append, h]
      simp [hc]
    simp [List.reverse_cons, h2, h]
  · have hne : ¬(t.reverse.dropWhile p).isEmpty := by simp [h]
    have h2 : (t.reverse ++ [c]).dropWhile p = t.reverse.dropWhile p ++ [c] := by
      rw [List.dropWhile_append]
      simp [hne]
    simp [List.reverse_cons, h2]

theorem dropTrailWhile_dropTrailWhile {p : Char → Bool} (l : List Char) :
    dropTrailWhile p (dropTrailWhile p l) = dropTrailWhile p l := by
  unfold dropTrailWhile
  rw [List.reverse_reverse, dropWhile_dropWhile]

theorem stripChars_idem (l : List Char) : stripChars (stripChars l) = stripChars l := by
  unfold stripChars
  rcases dropWhile_head_not (p := isPySpace) l with h | ⟨c, t, h, hc⟩
  · simp [h, dropTrailWhile]
  · rw [h, dropTrailWhile_head t hc, dropWhile_cons_head_false _ hc,
      ← dropTrailWhile_head t hc, dropTrailWhile_dropTrailWhile]

theorem strip_string_idem (s : String) : strip_string (strip_string s) = strip_string s := by
  unfold strip_string
  exact congrArg String.mk (stripChars_idem s.data)

theorem stripChars_of_no_space {l : List Char} (h : ∀ c ∈ l, isPySpace c = false) :
    stripChars l = l := by
  unfold stripChars dropTrailWhile
  rw [dropWhile_of_all_false h, dropWhile_of_all_false (by simpa using h),
    List.reverse_reverse]

theorem dropWhile_of_all_true {p : Char → Bool} {l : List Char}
    (h : ∀ c ∈ l, p c = true) : l.dropWhile p = [] := by
  induction l with
  | nil => rfl
  | cons c t ih =>
      have hc := h c (List.mem_cons_self c t)
      simp only [List.dropWhile_cons, hc, if_true]
      exact ih (fun c' hc' => h c' (List.mem_cons_of_mem _ hc'))

theorem stripChars_of_all_space {l : List Char} (h : ∀ c ∈ l, isPySpace c = true) :
    stripChars l = [] := by
  unfold stripChars dropTrailWhile
  rw [dropWhile_of_all_true h]
  rfl

/-- Field contents of a successfully constructed `Column`. -/
theorem Column.make_ok_fields {name : String} {i : Int} {ty : AttributeType}
    {d : Dtype} {v : PyValue} {ft ro : Option Int} {c : Column}
    (h : Column.make name i ty d v ft ro = .ok c) :
    c.name = strip_string name ∧ c.attribute_id = i ∧ c.attribute_type = ty ∧
    c.dtype = d ∧ c.field_type = ft.getD i ∧ c.reorder_id = ro.getD i := by
  unfold Column.make at h
  cases hdv : (if d = .dany then .ok v else applyDtype d v : Except PyError PyValue) with
  | error e =>
      rw [hdv] at h
      exact absurd h (by simp)
  | ok dv =>
      rw [hdv] at h
      simp only [Except.ok.injEq] at h
      subst h
      refine ⟨rfl, rfl, rfl, rfl, ?_, ?_⟩
      · cases ft <;> rfl
      · cases ro <;> rfl

/-- C2: for every Column `c` and value `v`, `cast_value` returns
`default_value` unchanged when `v` is the empty string (regardless of dtype);
otherwise it returns the result of applying the dtype, where the passthrough
dtype (`typing.Any`) returns `v` unchanged with no coercion. -/
theorem C2_cast_value_empty_default_else_dtype (c : Column) (v : PyValue) :
    c.cast_value (.str "") = .ok c.default_value ∧
    (v ≠ .str "" →
      (c.dtype = .dany → c.cast_value v = .ok v) ∧
      (c.dtype ≠ .dany → c.cast_value v = applyDtype c.dtype v)) := by
  constructor
  · have he : isEmptyStr (.str "") = true := by decide
    simp [Column.cast_value, he]
  · intro hv
    have hguard : isEmptyStr v = false := by
      cases v
      case str s =>
        have hs : s ≠ "" := fun h => hv (congrArg PyValue.str h)
        simp only [isEmptyStr]
        cases hs2 : s.isEmpty
        · rfl
        · exact absurd ((String.isEmpty_iff s).mp hs2) hs
      all_goals rfl
    constructor
    · intro hd
      simp [Column.cast_value, hguard, hd]
    · intro hd
      simp [Column.cast_value, hguard, hd]

/-- Witness for C2 at a concrete column and a concrete non-empty string. -/
theorem C2_witness :
    (⟨"X", 1, .UserAdded, .dstr, .str "dflt", 1, 1⟩ : Column).cast_value (.str "") =
      .ok (.str "dflt") ∧
    (⟨"X", 1, .UserAdded, .dstr, .str "dflt", 1, 1⟩ : Column).cast_value (.str "ab") =
      applyDtype .dstr (.str "ab") :=
  ⟨(C2_cast_value_empty_default_else_dtype _ (.str "ab")).1,
    ((C2_cast_value_empty_default_else_dtype
      (⟨"X", 1, .UserAdded, .dstr, .str "dflt", 1, 1⟩ : Column) (.str "ab")).2
        (by decide)).2 (by decide)⟩

/-- C8 counterexample: the static "Method Type" column is constructed with
`field_type` unset but `reorder_id = 12`; after construction `field_type`
defaults to `attribute_id = 11` while `reorder_id` stays `12 ≠ 11`, so it is
not the case that both fields equal `attribute_id`. -/
theorem C8_counterexample :
    (Column.make "Method Type" 11 .SystemDefined .dstr (.str "Method No Override")
        Option.none (some 12)).map (fun c => (c.field_type, c.reorder_id)) =
      .ok ((11 : Int), (12 : Int)) ∧ ((12 : Int) ≠ 11) := by
  decide

/-- C8 amended: each of `field_type` and `reorder_id` independently defaults
to `attribute_id` when unset at construction (so both equal `attribute_id`
when both are unset), while a field that is supplied keeps its given value. -/
theorem C8_amended_field_defaults (name : String) (i : Int) (ty : AttributeType)
    (d : Dtype) (v : PyValue) (c : Column) :
    (Column.make name i ty d v Option.none Option.none = .ok c →
      c.field_type = i ∧ c.reorder_id = i) ∧
    (∀ r, Column.make name i ty d v Option.none (some r) = .ok c →
      c.field_type = i ∧ c.reorder_id = r) ∧
    (∀ f, Column.make name i ty d v (some f) Option.none = .ok c →
      c.field_type = f ∧ c.reorder_id = i) := by
  refine ⟨fun h => ?_, fun r h => ?_, fun f h => ?_⟩
  · obtain ⟨-, -, -, -, h5, h6⟩ := Column.make_ok_fields h
    exact ⟨h5, h6⟩
  · obtain ⟨-, -, -, -, h5, h6⟩ := Column.make_ok_fields h
    exact ⟨h5, h6⟩
  · obtain ⟨-, -, -, -, h5, h6⟩ := Column.make_ok_fields h
    exact ⟨h5, h6⟩

/-- Witness for C8 (amended) at the "Method Type" construction. -/
theorem C8_witness :
    Column.make "Method Type" 11 .SystemDefined .dstr (.str "Method No Override")
      Option.none (some 12) =
      .ok ⟨"Method Type", 11, .SystemDefined, .dstr, .str "Method No Override", 11, 12⟩ ∧
    ((⟨"Method Type", 11, .SystemDefined, .dstr, .str "Method No Override", 11, 12⟩ :
        Column).field_type = 11 ∧
      (⟨"Method Type", 11, .SystemDefined, .dstr, .str "Method No Override", 11, 12⟩ :
        Column).reorder_id = 12) :=
  ⟨by decide,
    (C8_amended_field_defaults "Method Type" 11 .SystemDefined .dstr
      (.str "Method No Override") _).2.1 12 (by decide)⟩

/-- C7 counterexample: the claim's vocabulary omits `"t"`/`"f"`; the parser
accepts `"t"` as `True` instead of raising, so "raises a ValueError for every
other text" fails at `"t"`. -/
theorem C7_counterexample :
    element_to_bool (.str "t") = .ok true ∧
    "t" ∉ ["y", "yes", "true", "on", "1", "n", "no", "false", "off", "0", "-1"] := by
  decide

/-- C7 amended: `element_to_bool` returns `True` for `"-1"`/`-1` and the
truthy vocabulary `y/yes/t/true/on/1` case-insensitively (after stripping),
`False` for the falsy vocabulary `n/no/f/false/off/0` case-insensitively, and
raises a `ValueError` for every other text. -/
theorem C7_element_to_bool_amended (s : String) :
    element_to_bool (.str "-1") = .ok true ∧
    element_to_bool (.int (-1)) = .ok true ∧
    ((⟨(stripChars s.data).map Char.toLower⟩ : String) ∈ ["y", "yes", "t", "true", "on", "1"] →
      element_to_bool (.str s) = .ok true) ∧
    ((⟨(stripChars s.data).map Char.toLower⟩ : String) ∈ ["n", "no", "f", "false", "off", "0"] →
      element_to_bool (.str s) = .ok false) ∧
    (strip_string s ≠ "-1" →
      (⟨(stripChars s.data).map Char.toLower⟩ : String) ∉ ["y", "yes", "t", "true", "on", "1"] →
      (⟨(stripChars s.data).map Char.toLower⟩ : String) ∉ ["n", "no", "f", "false", "off", "0"] →
      element_to_bool (.str s) = .error (.valueError "invalid truth value")) := by
  have hrfl : element_to_bool (.str s) =
      (if strip_string s = "-1" then .ok true else strtobool (strip_string s)) := rfl
  refine ⟨by decide, by decide, ?_, ?_, ?_⟩
  · intro hm
    have hneg : strip_string s ≠ "-1" := by
      intro hx
      have hd : stripChars s.data = ['-', '1'] := congrArg String.data hx
      rw [show (⟨(stripChars s.data).map Char.toLower⟩ : String) =
        (⟨(['-', '1'] : List Char).map Char.toLower⟩ : String) from by rw [hd]] at hm
      exact absurd hm (by decide)
    rw [hrfl, if_neg hneg]
    have hm' : (⟨(strip_string s).data.map Char.toLower⟩ : String) ∈
        ["y", "yes", "t", "true", "on", "1"] := hm
    unfold strtobool
    rw [if_pos hm']
  · intro hm
    have hneg : strip_string s ≠ "-1" := by
      intro hx
      have hd : stripChars s.data = ['-', '1'] := congrArg String.data hx
      rw [show (⟨(stripChars s.data).map Char.toLower⟩ : String) =
        (⟨(['-', '1'] : List Char).map Char.toLower⟩ : String) from by rw [hd]] at hm
      exact absurd hm (by decide)
    rw [hrfl, if_neg hneg]
    have hm' : (⟨(strip_string s).data.map Char.toLower⟩ : String) ∈
        ["n", "no", "f", "false", "off", "0"] := hm
    have hnt : ¬((⟨(strip_string s).data.map Char.toLower⟩ : String) ∈
        ["y", "yes", "t", "true", "on", "1"]) := by
      intro hx
      simp only [List.mem_cons, List.mem_singleton, List.not_mem_nil, or_false] at hm' hx
      rcases hx with h | h | h | h | h | h <;> rw [h] at hm' <;> simp at hm'
    unfold strtobool
    rw [if_neg hnt, if_pos hm']
  · intro hneg hnt hnf
    rw [hrfl, if_neg hneg]
    have hnt' : ¬((⟨(strip_string s).data.map Char.toLower⟩ : String) ∈
        ["y", "yes", "t", "true", "on", "1"]) := hnt
    have hnf' : ¬((⟨(strip_string s).data.map Char.toLower⟩ : String) ∈
        ["n", "no", "f", "false", "off", "0"]) := hnf
    unfold strtobool
    rw [if_neg hnt', if_neg hnf']

/-- Witness for C7 (amended) at the case-insensitive input `" YES "`. -/
theorem C7_witness :
    element_to_bool (.str " YES ") = .ok true ∧ element_to_bool (.int (-1)) = .ok true :=
  ⟨(C7_element_to_bool_amended " YES ").2.2.1 (by decide),
    (C7_element_to_bool_amended " YES ").2.1⟩

/-! ### Decimal digit strings -/

theorem digitChar_isDigit {d : Nat} (h : d < 10) : (Char.ofNat (48 + d)).isDigit = true := by
  interval_cases d <;> decide

theorem digitChar_toNat {d : Nat} (h : d < 10) : (Char.ofNat (48 + d)).toNat - 48 = d := by
  interval_cases d <;> decide

theorem digitChar_not_space {d : Nat} (h : d < 10) :
    isPySpace (Char.ofNat (48 + d)) = false := by
  interval_cases d <;> decide

theorem digitChar_ne_plus {d : Nat} (h : d < 10) : Char.ofNat (48 + d) ≠ '+' := by
  interval_cases d <;> decide

theorem digitChar_ne_minus {d : Nat} (h : d < 10) : Char.ofNat (48 + d) ≠ '-' := by
  interval_cases d <;> decide

theorem foldl_digits_rev (L : List Nat) (hL : ∀ d ∈ L, d < 10) (a : Nat) :
    (L.reverse.map (fun d => Char.ofNat (48 + d))).foldl
        (fun a c => 10 * a + (c.toNat - 48)) a =
      a * 10 ^ L.length + Nat.ofDigits 10 L := by
  induction L generalizing a with
  | nil => simp [Nat.ofDigits]
  | cons d T ih =>
      simp only [List.reverse_cons, List.map_append, List.map_cons, List.map_nil,
        List.foldl_append, List.foldl_cons, List.foldl_nil]
      rw [ih (fun x hx => hL x (List.mem_cons_of_mem _ hx)) a,
        digitChar_toNat (hL d (List.mem_cons_self d T)), Nat.ofDigits_cons,
        List.length_cons]
      ring

theorem digitsVal_of_digits (n : Nat) :
    digitsVal ((Nat.digits 10 n).reverse.map (fun d => Char.ofNat (48 + d))) = n := by
  unfold digitsVal
  rw [foldl_digits_rev _ (fun d hd => Nat.digits_lt_base (by norm_num) hd) 0]
  simp [Nat.ofDigits_digits]

theorem decimalString_all_digits (n : Nat) :
    ∀ c ∈ (decimalString n).data, c.isDigit = true := by
  intro c hc
  unfold decimalString at hc
  by_cases h0 : n = 0
  · rw [if_pos h0] at hc
    simp only [List.mem_singleton] at hc
    subst hc
    decide
  · rw [if_neg h0] at hc
    obtain ⟨d, hd, rfl⟩ := List.mem_map.mp hc
    exact digitChar_isDigit
      (Nat.digits_lt_base (by norm_num) (List.mem_reverse.mp hd))

theorem decimalString_no_space (n : Nat) :
    ∀ c ∈ (decimalString n).data, isPySpace c = false := by
  intro c hc
  unfold decimalString at hc
  by_cases h0 : n = 0
  · rw [if_pos h0] at hc
    simp only [List.mem_singleton] at hc
    subst hc
    decide
  · rw [if_neg h0] at hc
    obtain ⟨d, hd, rfl⟩ := List.mem_map.mp hc
    exact digitChar_not_space
      (Nat.digits_lt_base (by norm_num) (List.mem_reverse.mp hd))

theorem parseNatDigits_decimalString (n : Nat) :
    parseNatDigits (decimalString n).data = some n := by
  by_cases h0 : n = 0
  · subst h0
    decide
  · have hdata : (decimalString n).data =
        (Nat.digits 10 n).reverse.map (fun d => Char.ofNat (48 + d)) := by
      unfold decimalString
      rw [if_neg h0]
    have hne : (decimalString n).data ≠ [] := by
      rw [hdata]
      simp [Nat.digits_ne_nil_iff_ne_zero.mpr h0]
    have hdig := decimalString_all_digits n
    unfold parseNatDigits
    rw [if_pos]
    · rw [hdata, digitsVal_of_digits]
    · simp only [Bool.and_eq_true, Bool.not_eq_true']
      constructor
      · cases hd : (decimalString n).data
        · exact absurd hd hne
        · rfl
      · exact List.all_eq_true.mpr hdig

theorem stripChars_decimalString (n : Nat) :
    stripChars (decimalString n).data = (decimalString n).data :=
  stripChars_of_no_space (decimalString_no_space n)

theorem decimalString_head_digit (n : Nat) :
    ∃ c t, (decimalString n).data = c :: t ∧ c.isDigit = true := by
  cases hd : (decimalString n).data with
  | nil =>
      exfalso
      by_cases h0 : n = 0
      · subst h0
        simp [decimalString] at hd
      · have : (decimalString n).data ≠ [] := by
          unfold decimalString
          rw [if_neg h0]
          simp [Nat.digits_ne_nil_iff_ne_zero.mpr h0]
        exact this hd
  | cons c t =>
      exact ⟨c, t, rfl, decimalString_all_digits n c (by rw [hd]; exact List.mem_cons_self c t)⟩

theorem isDigit_ne_plus {c : Char} (h : c.isDigit = true) : c ≠ '+' := by
  intro hc
  subst hc
  exact absurd h (by decide)

theorem isDigit_ne_minus {c : Char} (h : c.isDigit = true) : c ≠ '-' := by
  intro hc
  subst hc
  exact absurd h (by decide)

theorem pyParseInt_decimalString (n : Nat) :
    pyParseInt (decimalString n) = some ((n : Int)) := by
  obtain ⟨c, t, hct, hcd⟩ := decimalString_head_digit n
  unfold pyParseInt
  rw [stripChars_decimalString n, hct]
  simp only [pyParseIntChars]
  rw [if_neg (isDigit_ne_plus hcd), if_neg (isDigit_ne_minus hcd), ← hct,
    parseNatDigits_decimalString n]
  rfl

/-- `pyIntCast` on a string value, unfolded. -/
theorem pyIntCast_str (s : String) :
    pyIntCast (.str s) = (match pyParseInt s with
      | some n => .ok (.int n)
      | Option.none => .error (.valueError "invalid literal for int() with base 10")) := rfl

/-- C6: `injection_volume` maps `-1` (as int or string) to the sentinel
`"As Method"`, and every non-negative integer and its decimal string form to
the integer itself. -/
theorem C6_injection_volume :
    injection_volume (.int (-1)) = .ok (.str "As Method") ∧
    injection_volume (.str "-1") = .ok (.str "As Method") ∧
    (∀ n : Nat, injection_volume (.int (n : Int)) = .ok (.int (n : Int)) ∧
      injection_volume (.str (decimalString n)) = .ok (.int (n : Int))) := by
  refine ⟨by decide, by decide, fun n => ⟨?_, ?_⟩⟩
  · unfold injection_volume
    rw [if_neg]
    · rfl
    · rintro (h | h | h)
      · simp only [PyValue.int.injEq] at h
        omega
      · exact absurd h (by simp)
      · exact absurd h (by simp)
  · unfold injection_volume
    rw [if_neg]
    · rw [pyIntCast_str, pyParseInt_decimalString]
    · rintro (h | h | h)
      · exact absurd h (by simp)
      · simp only [PyValue.str.injEq] at h
        have hd := decimalString_all_digits n
        rw [h] at hd
        exact absurd (hd '-' (by decide)) (by decide)
      · exact absurd h (by simp)

/-! ### C4: LockedRunMode -/

theorem except_bind_ok {ε α β : Type} (a : α) (f : α → Except ε β) :
    (Except.ok a >>= f : Except ε β) = f a := rfl

theorem except_bind_error {ε α β : Type} (e : ε) (f : α → Except ε β) :
    (Except.error e >>= f : Except ε β) = Except.error e := rfl

theorem decodeLockedRunMode_of_parse {s : String} {n : Int}
    (h : pyParseInt s = some n) :
    decodeLockedRunMode s =
      (if n = -1 then .ok true
        else if n = 0 then .ok false
        else .error (.valueError "Unknown value for 'LockedRunMode'")) := by
  unfold decodeLockedRunMode
  rw [h]

/-- C4: `Worklist.from_xml` accepts only the integer values `-1`
(→ `locked_run_mode = True`) and `0` (→ `False`) for `LockedRunMode`; every
other integer makes it fail with a `ValueError` naming the field (given that
the `Version`/`Checksum` steps that precede the check succeed). -/
theorem C4_locked_run_mode (r : WorklistElement) (n : Int)
    (hLRM : pyParseInt r.WorklistInfo.LockedRunMode = some n) :
    (∀ wl, Worklist.from_xml r = .ok wl →
      (n = -1 → wl.locked_run_mode = true) ∧ (n = 0 → wl.locked_run_mode = false) ∧
      (n = -1 ∨ n = 0)) ∧
    (n ≠ -1 → n ≠ 0 →
      (∃ ver, pyFloatFromText r.Version = .ok ver) →
      (∃ ck, Checksum.from_xml r.Checksum = .ok ck) →
      Worklist.from_xml r = .error (.valueError "Unknown value for 'LockedRunMode'")) := by
  constructor
  · intro wl h
    unfold Worklist.from_xml at h
    cases hv : pyFloatFromText r.Version with
    | error e => rw [hv, except_bind_error] at h; exact Except.noConfusion h
    | ok ver =>
    rw [hv, except_bind_ok] at h
    cases hc : Checksum.from_xml r.Checksum with
    | error e => rw [hc, except_bind_error] at h; exact Except.noConfusion h
    | ok ck =>
    rw [hc, except_bind_ok] at h
    cases hd : decodeLockedRunMode r.WorklistInfo.LockedRunMode with
    | error e => rw [hd, except_bind_error] at h; exact Except.noConfusion h
    | ok b =>
    rw [hd, except_bind_ok] at h
    rw [decodeLockedRunMode_of_parse hLRM] at hd
    cases hp : parse_params r.WorklistInfo.Params with
    | error e => rw [hp, except_bind_error] at h; exact Except.noConfusion h
    | ok ps =>
    rw [hp, except_bind_ok] at h
    cases ha : attrLoop r.WorklistInfo.AttributeInformation [] [] with
    | error e => rw [ha, except_bind_error] at h; exact Except.noConfusion h
    | ok auc =>
    rw [ha, except_bind_ok] at h
    obtain ⟨attrs, uc⟩ := auc
    simp only [] at h
    cases hj : r.WorklistInfo.JobDataList.mapM (fun j => JobData.from_xml j uc) with
    | error e => rw [hj, except_bind_error] at h; exact Except.noConfusion h
    | ok jobs =>
    rw [hj, except_bind_ok] at h
    have hwl : (⟨ver, b, r.WorklistInfo.Instrument, ps, uc, jobs, ck⟩ : Worklist) = wl :=
      Except.ok.inj h
    by_cases h1 : n = -1
    · rw [if_pos h1] at hd
      have hb : b = true := (Except.ok.inj hd).symm
      exact ⟨fun _ => by rw [← hwl, hb], fun h0 => absurd (h1 ▸ h0) (by norm_num),
        Or.inl h1⟩
    · rw [if_neg h1] at hd
      by_cases h0 : n = 0
      · rw [if_pos h0] at hd
        have hb : b = false := (Except.ok.inj hd).symm
        exact ⟨fun hx => absurd (hx ▸ h0) (by norm_num), fun _ => by rw [← hwl, hb],
          Or.inr h0⟩
      · rw [if_neg h0] at hd
        exact absurd hd (by simp)
  · intro h1 h0 hv' hc'
    obtain ⟨ver, hv⟩ := hv'
    obtain ⟨ck, hc⟩ := hc'
    unfold Worklist.from_xml
    rw [hv, except_bind_ok, hc, except_bind_ok,
      decodeLockedRunMode_of_parse hLRM, if_neg h1, if_neg h0, except_bind_error]

/-- Witness for C4: a root element whose `LockedRunMode` is `7` fails with
the field-naming `ValueError`. -/
theorem C4_witness :
    pyParseInt sampleRootBadLock.WorklistInfo.LockedRunMode = some 7 ∧
    Worklist.from_xml sampleRootBadLock =
      .error (.valueError "Unknown value for 'LockedRunMode'") :=
  ⟨by decide,
    (C4_locked_run_mode sampleRootBadLock 7 (by decide)).2 (by decide) (by decide)
      ⟨2, by decide⟩ ⟨⟨1, 1, "ABCD"⟩, by decide⟩⟩

/-! ### C3: tabular projection headers -/

/-- The static `columns` table's keys, in insertion order, are exactly the 28
display names in declared order. -/
theorem columns_keys : columns.map Prod.fst = specStaticHeaderNames := by decide

/-- C3: the tabular projection's headers are the static display names in the
static table's insertion order followed by the user column names in discovery
order; with no user columns they are exactly the 28 static display names. -/
theorem C3_as_dataframe_headers (wl : Worklist) (hs : List String)
    (rows : List (List PyValue)) (h : wl.as_dataframe = .ok (hs, rows)) :
    hs = specStaticHeaderNames ++ wl.user_columns.map Prod.fst ∧
    (wl.user_columns = [] → hs = specStaticHeaderNames) := by
  unfold Worklist.as_dataframe at h
  cases hm : wl.jobs.mapM (fun (job : JobData) =>
      ((columns.map Prod.fst) ++ (wl.user_columns.map Prod.fst)).mapM (fun h =>
        match dLookup h job.sample_info with
        | some v => Except.ok v
        | Option.none => Except.error (PyError.keyError h))) with
  | error e =>
      rw [hm] at h
      exact Except.noConfusion h
  | ok data =>
      rw [hm] at h
      have h2 : ((columns.map Prod.fst) ++ (wl.user_columns.map Prod.fst), data) =
          (hs, rows) := Except.ok.inj h
      have h3 : (columns.map Prod.fst) ++ (wl.user_columns.map Prod.fst) = hs :=
        congrArg Prod.fst h2
      rw [columns_keys] at h3
      refine ⟨h3.symm, fun hu => ?_⟩
      rw [← h3, hu]
      simp

/-- Witness for C3 at a concrete worklist with no user columns. -/
theorem C3_witness :
    sampleWorklistNoUser.as_dataframe = .ok (specStaticHeaderNames, []) ∧
    specStaticHeaderNames =
      specStaticHeaderNames ++ sampleWorklistNoUser.user_columns.map Prod.fst :=
  ⟨by decide, (C3_as_dataframe_headers sampleWorklistNoUser specStaticHeaderNames []
    (by decide)).1⟩

/-! ### C9: JobData equality -/

theorem toHexPad_length (w n : Nat) : (toHexPad w n).length = w := by
  induction w generalizing n with
  | zero => rfl
  | succ w ih => simp [toHexPad, ih]

theorem hexDigitVal_hexDigitChar {d : Nat} (h : d < 16) :
    hexDigitVal (hexDigitChar d) = d := by
  interval_cases d <;> decide

theorem hexDigitChar_ne_hyphen {d : Nat} (h : d < 16) : hexDigitChar d ≠ '-' := by
  interval_cases d <;> decide

theorem foldl_toHexPad (w : Nat) : ∀ n a : Nat,
    (toHexPad w n).foldl (fun a c => 16 * a + hexDigitVal c) a = a * 16 ^ w + n % 16 ^ w := by
  induction w with
  | zero => intro n a; simp [toHexPad, Nat.mod_one]
  | succ w ih =>
      intro n a
      simp only [toHexPad, List.foldl_append, List.foldl_cons, List.foldl_nil]
      rw [ih (n / 16) a, hexDigitVal_hexDigitChar (Nat.mod_lt _ (by norm_num))]
      have hm : n % 16 ^ (w + 1) = n % 16 + 16 * (n / 16 % 16 ^ w) := by
        rw [pow_succ, mul_comm (16 ^ w) 16, Nat.mod_mul]
      rw [hm, pow_succ]
      ring

theorem foldl_toHexPad_self {w n : Nat} (h : n < 16 ^ w) :
    (toHexPad w n).foldl (fun a c => 16 * a + hexDigitVal c) 0 = n := by
  rw [foldl_toHexPad w n 0, Nat.zero_mul, Nat.zero_add, Nat.mod_eq_of_lt h]

theorem toHexPad_injective {w a b : Nat} (ha : a < 16 ^ w) (hb : b < 16 ^ w)
    (h : toHexPad w a = toHexPad w b) : a = b := by
  have h2 := congrArg (List.foldl (fun a c => 16 * a + hexDigitVal c) 0) h
  rwa [foldl_toHexPad_self ha, foldl_toHexPad_self hb] at h2

theorem toHexPad_ne_hyphen (w : Nat) : ∀ n : Nat, ∀ c ∈ toHexPad w n, c ≠ '-' := by
  induction w with
  | zero => intro n c hc; exact absurd hc (List.not_mem_nil c)
  | succ w ih =>
      intro n c hc
      rcases List.mem_append.mp hc with h | h
      · exact ih (n / 16) c h
      · rw [List.mem_singleton.mp h]
        exact hexDigitChar_ne_hyphen (Nat.mod_lt _ (by norm_num))

theorem filter_ne_hyphen_eq_self {l : List Char} (h : ∀ c ∈ l, c ≠ '-') :
    l.filter (fun c => c != '-') = l := by
  induction l with
  | nil => rfl
  | cons c t ih =>
      have hc : (c != '-') = true := by
        simp only [bne_iff_ne, ne_eq]
        exact h c (List.mem_cons_self c t)
      simp only [List.filter_cons, hc, if_true]
      rw [ih (fun c' hc' => h c' (List.mem_cons_of_mem _ hc'))]

theorem uuidStr_filter (n : Nat) :
    (uuidStr n).data.filter (fun c => c != '-') = toHexPad 32 n := by
  have hne := toHexPad_ne_hyphen 32 n
  have hsub : ∀ (l : List Char), (∀ c ∈ l, c ∈ toHexPad 32 n) →
      l.filter (fun c => c != '-') = l :=
    fun l hl => filter_ne_hyphen_eq_self (fun c hc => hne c (hl c hc))
  have hdata : (uuidStr n).data = (toHexPad 32 n).take 8 ++
      ('-' :: (((toHexPad 32 n).drop 8).take 4 ++
        ('-' :: (((toHexPad 32 n).drop 12).take 4 ++
          ('-' :: (((toHexPad 32 n).drop 16).take 4 ++
            ('-' :: (toHexPad 32 n).drop 20))))))) := rfl
  rw [hdata]
  have hhy : (('-' : Char) != '-') = false := by decide
  rw [List.filter_append, List.filter_cons, hhy]
  simp only [Bool.false_eq_true, if_false]
  rw [List.filter_append, List.filter_cons, hhy]
  simp only [Bool.false_eq_true, if_false]
  rw [List.filter_append, List.filter_cons, hhy]
  simp only [Bool.false_eq_true, if_false]
  rw [List.filter_append, List.filter_cons, hhy]
  simp only [Bool.false_eq_true, if_false]
  rw [hsub _ (fun c hc => List.take_subset _ _ hc),
    hsub _ (fun c hc => List.drop_subset _ _ (List.take_subset _ _ hc)),
    hsub _ (fun c hc => List.drop_subset _ _ (List.take_subset _ _ hc)),
    hsub _ (fun c hc => List.drop_subset _ _ (List.take_subset _ _ hc)),
    hsub _ (fun c hc => List.drop_subset _ _ hc)]
  rw [show ((toHexPad 32 n).drop 16).take 4 ++ (toHexPad 32 n).drop 20 =
      ((toHexPad 32 n).drop 16).take 4 ++ ((toHexPad 32 n).drop 16).drop 4 from by
    rw [List.drop_drop]]
  rw [List.take_append_drop]
  rw [show ((toHexPad 32 n).drop 12).take 4 ++ (toHexPad 32 n).drop 16 =
      ((toHexPad 32 n).drop 12).take 4 ++ ((toHexPad 32 n).drop 12).drop 4 from by
    rw [List.drop_drop]]
  rw [List.take_append_drop]
  rw [show ((toHexPad 32 n).drop 8).take 4 ++ (toHexPad 32 n).drop 12 =
      ((toHexPad 32 n).drop 8).take 4 ++ ((toHexPad 32 n).drop 8).drop 4 from by
    rw [List.drop_drop]]
  rw [List.take_append_drop, List.take_append_drop]

theorem uuidStr_injective {a b : Nat} (ha : a < 2 ^ 128) (hb : b < 2 ^ 128)
    (h : uuidStr a = uuidStr b) : a = b := by
  have hpow : (2 : Nat) ^ 128 = 16 ^ 32 := by norm_num
  have h2 := congrArg (fun s : String => s.data.filter (fun c => c != '-')) h
  simp only [uuidStr_filter] at h2
  exact toHexPad_injective (hpow ▸ ha) (hpow ▸ hb) h2

/-- C9 counterexample: two `JobData` values with equal ids but different
`job_type` are not equal under `Dictable.__eq__`, refuting "a == b iff their
ids are equal". -/
theorem C9_counterexample :
    (JobData.make 5 0 0 []).id = (JobData.make 5 1 0 []).id ∧
    ¬(JobData.make 5 0 0 []).pyEq (JobData.make 5 1 0 []) := by
  refine ⟨rfl, fun h => ?_⟩
  have h2 := congrArg JobDataDict.job_type h
  exact absurd h2 (by decide)

/-- C9 amended: `JobData` equality compares the full `to_dict` dictionary:
`a == b` iff the ids, `job_type`, `run_status` and `sample_info` are all
equal (ids being 128-bit UUID values); id equality alone is necessary but not
sufficient. -/
theorem C9_jobdata_eq_amended (a b : JobData) (ha : a.id < 2 ^ 128)
    (hb : b.id < 2 ^ 128) :
    a.pyEq b ↔ (a.id = b.id ∧ a.job_type = b.job_type ∧
      a.run_status = b.run_status ∧ a.sample_info = b.sample_info) := by
  constructor
  · intro h
    unfold JobData.pyEq JobData.to_dict at h
    simp only [JobDataDict.mk.injEq] at h
    exact ⟨uuidStr_injective ha hb h.1, h.2.1, h.2.2.1, h.2.2.2⟩
  · rintro ⟨h1, h2, h3, h4⟩
    unfold JobData.pyEq JobData.to_dict
    rw [h1, h2, h3, h4]

/-- Witness for C9 (amended) at two equal concrete `JobData` values. -/
theorem C9_witness :
    ((JobData.make 5 2 3 [("k", .int 1)]).id < 2 ^ 128) ∧
    (JobData.make 5 2 3 [("k", .int 1)]).pyEq (JobData.make 5 2 3 [("k", .int 1)]) :=
  ⟨by norm_num [JobData.make],
    (C9_jobdata_eq_amended (JobData.make 5 2 3 [("k", .int 1)])
      (JobData.make 5 2 3 [("k", .int 1)]) (by norm_num [JobData.make])
      (by norm_num [JobData.make])).mpr ⟨rfl, rfl, rfl, rfl⟩⟩

/-! ### C5: parse_datetime -/

theorem isPySpace_of_isDigit {c : Char} (h : c.isDigit = true) : isPySpace c = false := by
  cases hc : isPySpace c
  · rfl
  · exfalso
    unfold isPySpace at hc
    simp only [Bool.or_eq_true, beq_iff_eq] at hc
    rcases hc with ((((h1 | h1) | h1) | h1) | h1) | h1 <;> subst h1 <;>
      exact absurd h (by decide)

/-- C5: `parse_datetime` returns the fixed UTC epoch for every whitespace-only
input (including the empty string), and for a non-empty input in the format
`YYYY-MM-DDTHH:MM:SS.ffffff±HH:MM` (digit groups in range, at least one
sub-second digit) it normalises the colon offset, discards the sub-second
digits, and returns the parsed timezone-aware datetime. -/
theorem C5_parse_datetime :
    (∀ s : String, (∀ c ∈ s.data, isPySpace c = true) →
      parse_datetime s = .ok epochDateTime) ∧
    (∀ (y1 y2 y3 y4 m1 m2 d1 d2 h1 h2 i1 i2 s1 s2 sg z1 z2 z3 z4 : Char)
        (us : List Char),
      [y1, y2, y3, y4, m1, m2, d1, d2, h1, h2, i1, i2, s1, s2,
        z1, z2, z3, z4].all Char.isDigit = true →
      us ≠ [] → us.all Char.isDigit = true → (sg = '+' ∨ sg = '-') →
      1 ≤ digitsVal [y1, y2, y3, y4] →
      1 ≤ digitPair m1 m2 → digitPair m1 m2 ≤ 12 →
      1 ≤ digitPair d1 d2 →
      digitPair d1 d2 ≤ daysInMonth (digitsVal [y1, y2, y3, y4]) (digitPair m1 m2) →
      digitPair h1 h2 ≤ 23 → digitPair i1 i2 ≤ 59 → digitPair s1 s2 ≤ 59 →
      digitPair z3 z4 ≤ 59 → digitPair z1 z2 * 60 + digitPair z3 z4 < 1440 →
      parse_datetime ⟨[y1, y2, y3, y4, '-', m1, m2, '-', d1, d2, 'T',
          h1, h2, ':', i1, i2, ':', s1, s2, '.'] ++
        (us ++ (sg :: [z1, z2, ':', z3, z4]))⟩ =
        .ok ⟨digitsVal [y1, y2, y3, y4], digitPair m1 m2, digitPair d1 d2,
          digitPair h1 h2, digitPair i1 i2, digitPair s1 s2,
          if sg == '-' then -((digitPair z1 z2 * 60 + digitPair z3 z4 : Nat) : Int)
          else ((digitPair z1 z2 * 60 + digitPair z3 z4 : Nat) : Int)⟩) := by
  constructor
  · intro s hsp
    unfold parse_datetime
    rw [stripChars_of_all_space hsp]
    rfl
  · intro y1 y2 y3 y4 m1 m2 d1 d2 h1 h2 i1 i2 s1 s2 sg z1 z2 z3 z4 us
    intro hall hne hus hsg hy hmo1 hmo2 hd1 hd2 hh hi hs hzm hzt
    have hdig18 := List.all_eq_true.mp hall
    have hdigus := List.all_eq_true.mp hus
    have hsgb : (sg == '+' || sg == '-') = true := by
      rcases hsg with rfl | rfl <;> rfl
    have hnospace : ∀ c ∈ ([y1, y2, y3, y4, '-', m1, m2, '-', d1, d2, 'T',
        h1, h2, ':', i1, i2, ':', s1, s2, '.'] ++
        (us ++ (sg :: [z1, z2, ':', z3, z4]))), isPySpace c = false := by
      intro c hc
      simp only [List.mem_append, List.mem_cons, List.not_mem_nil, or_false] at hc
      rcases hc with (hc | hc | hc | hc | hc | hc | hc | hc | hc | hc | hc | hc | hc |
          hc | hc | hc | hc | hc | hc | hc) | (hc | hc | hc | hc | hc | hc | hc)
      · exact hc ▸ isPySpace_of_isDigit (hdig18 y1 (by simp))
      · exact hc ▸ isPySpace_of_isDigit (hdig18 y2 (by simp))
      · exact hc ▸ isPySpace_of_isDigit (hdig18 y3 (by simp))
      · exact hc ▸ isPySpace_of_isDigit (hdig18 y4 (by simp))
      · exact hc ▸ (by decide)
      · exact hc ▸ isPySpace_of_isDigit (hdig18 m1 (by simp))
      · exact hc ▸ isPySpace_of_isDigit (hdig18 m2 (by simp))
      · exact hc ▸ (by decide)
      · exact hc ▸ isPySpace_of_isDigit (hdig18 d1 (by simp))
      · exact hc ▸ isPySpace_of_isDigit (hdig18 d2 (by simp))
      · exact hc ▸ (by decide)
      · exact hc ▸ isPySpace_of_isDigit (hdig18 h1 (by simp))
      · exact hc ▸ isPySpace_of_isDigit (hdig18 h2 (by simp))
      · exact hc ▸ (by decide)
      · exact hc ▸ isPySpace_of_isDigit (hdig18 i1 (by simp))
      · exact hc ▸ isPySpace_of_isDigit (hdig18 i2 (by simp))
      · exact hc ▸ (by decide)
      · exact hc ▸ isPySpace_of_isDigit (hdig18 s1 (by simp))
      · exact hc ▸ isPySpace_of_isDigit (hdig18 s2 (by simp))
      · exact hc ▸ (by decide)
      · exact isPySpace_of_isDigit (hdigus c hc)
      · rcases hsg with h' | h' <;> exact hc ▸ h' ▸ (by decide)
      · exact hc ▸ isPySpace_of_isDigit (hdig18 z1 (by simp))
      · exact hc ▸ isPySpace_of_isDigit (hdig18 z2 (by simp))
      · exact hc ▸ (by decide)
      · exact hc ▸ isPySpace_of_isDigit (hdig18 z3 (by simp))
      · exact hc ▸ isPySpace_of_isDigit (hdig18 z4 (by simp))
    have hstrip : stripChars ((⟨[y1, y2, y3, y4, '-', m1, m2, '-', d1, d2, 'T',
        h1, h2, ':', i1, i2, ':', s1, s2, '.'] ++
        (us ++ (sg :: [z1, z2, ':', z3, z4]))⟩ : String).data) =
        [y1, y2, y3, y4, '-', m1, m2, '-', d1, d2, 'T',
          h1, h2, ':', i1, i2, ':', s1, s2, '.'] ++
        (us ++ (sg :: [z1, z2, ':', z3, z4])) :=
      stripChars_of_no_space hnospace
    have hlen : ([y1, y2, y3, y4, '-', m1, m2, '-', d1, d2, 'T',
        h1, h2, ':', i1, i2, ':', s1, s2, '.'] ++
        (us ++ (sg :: [z1, z2, ':', z3, z4]))).length = 26 + us.length := by
      simp only [List.length_append, List.length_cons, List.length_nil]
      omega
    unfold parse_datetime
    rw [hstrip, hlen]
    rw [if_neg (by
      intro hempty
      rw [List.isEmpty_iff] at hempty
      exact List.noConfusion hempty)]
    rw [if_neg (by omega)]
    have hslice : pyDatetimeSlice ([y1, y2, y3, y4, '-', m1, m2, '-', d1, d2, 'T',
        h1, h2, ':', i1, i2, ':', s1, s2, '.'] ++
        (us ++ (sg :: [z1, z2, ':', z3, z4]))) =
        [y1, y2, y3, y4, '-', m1, m2, '-', d1, d2, 'T',
          h1, h2, ':', i1, i2, ':', s1, s2] ++ (sg :: [z1, z2, z3, z4]) := by
      have hCassoc : [y1, y2, y3, y4, '-', m1, m2, '-', d1, d2, 'T',
          h1, h2, ':', i1, i2, ':', s1, s2, '.'] ++
          (us ++ (sg :: [z1, z2, ':', z3, z4])) =
          ([y1, y2, y3, y4, '-', m1, m2, '-', d1, d2, 'T',
            h1, h2, ':', i1, i2, ':', s1, s2, '.'] ++
            (us ++ (sg :: [z1, z2]))) ++ (':' :: [z3, z4]) := by
        simp [List.append_assoc]
      have hlenC : ([y1, y2, y3, y4, '-', m1, m2, '-', d1, d2, 'T',
          h1, h2, ':', i1, i2, ':', s1, s2, '.'] ++
          (us ++ (sg :: [z1, z2]))).length = 23 + us.length := by
        simp only [List.length_append, List.length_cons, List.length_nil]
        omega
      have hnorm : colonNormalize ([y1, y2, y3, y4, '-', m1, m2, '-', d1, d2, 'T',
          h1, h2, ':', i1, i2, ':', s1, s2, '.'] ++
          (us ++ (sg :: [z1, z2, ':', z3, z4]))) =
          ([y1, y2, y3, y4, '-', m1, m2, '-', d1, d2, 'T',
            h1, h2, ':', i1, i2, ':', s1, s2, '.'] ++
            (us ++ (sg :: [z1, z2]))) ++ [z3, z4] := by
        unfold colonNormalize
        rw [hlen]
        rw [if_pos (by
          rw [hCassoc, List.getElem?_append_right (by rw [hlenC]; omega)]
          rw [hlenC]
          rw [show 26 + us.length - 3 - (23 + us.length) = 0 from by omega]
          rfl)]
        congr 1
        · rw [show 26 + us.length - 3 = ([y1, y2, y3, y4, '-', m1, m2, '-', d1, d2, 'T',
              h1, h2, ':', i1, i2, ':', s1, s2, '.'] ++
              (us ++ (sg :: [z1, z2]))).length from by rw [hlenC]; omega]
          rw [hCassoc, List.take_left]
        · rw [show ([y1, y2, y3, y4, '-', m1, m2, '-', d1, d2, 'T',
              h1, h2, ':', i1, i2, ':', s1, s2, '.'] ++
              (us ++ (sg :: [z1, z2, ':', z3, z4]))) =
              (([y1, y2, y3, y4, '-', m1, m2, '-', d1, d2, 'T',
                h1, h2, ':', i1, i2, ':', s1, s2, '.'] ++
                (us ++ (sg :: [z1, z2]))) ++ [':']) ++ [z3, z4] from by
            simp [List.append_assoc]]
          rw [show 26 + us.length - 2 = (([y1, y2, y3, y4, '-', m1, m2, '-', d1, d2, 'T',
              h1, h2, ':', i1, i2, ':', s1, s2, '.'] ++
              (us ++ (sg :: [z1, z2]))) ++ [':']).length from by
            simp only [List.length_append, List.length_cons, List.length_nil]
            omega]
          rw [List.drop_left]
      unfold pyDatetimeSlice
      rw [hnorm]
      have hres : (([y1, y2, y3, y4, '-', m1, m2, '-', d1, d2, 'T',
          h1, h2, ':', i1, i2, ':', s1, s2, '.'] ++
          (us ++ (sg :: [z1, z2]))) ++ [z3, z4]) =
          [y1, y2, y3, y4, '-', m1, m2, '-', d1, d2, 'T',
            h1, h2, ':', i1, i2, ':', s1, s2] ++
          ('.' :: (us ++ (sg :: [z1, z2, z3, z4]))) := by
        simp [List.append_assoc]
      have htake : (([y1, y2, y3, y4, '-', m1, m2, '-', d1, d2, 'T',
          h1, h2, ':', i1, i2, ':', s1, s2, '.'] ++
          (us ++ (sg :: [z1, z2]))) ++ [z3, z4]).take 19 =
          [y1, y2, y3, y4, '-', m1, m2, '-', d1, d2, 'T',
            h1, h2, ':', i1, i2, ':', s1, s2] := by
        rw [hres]
        rw [show (19 : Nat) = ([y1, y2, y3, y4, '-', m1, m2, '-', d1, d2, 'T',
            h1, h2, ':', i1, i2, ':', s1, s2] : List Char).length from rfl]
        exact List.take_left _ _
      have hdrop : (([y1, y2, y3, y4, '-', m1, m2, '-', d1, d2, 'T',
          h1, h2, ':', i1, i2, ':', s1, s2, '.'] ++
          (us ++ (sg :: [z1, z2]))) ++ [z3, z4]).drop
          ((([y1, y2, y3, y4, '-', m1, m2, '-', d1, d2, 'T',
            h1, h2, ':', i1, i2, ':', s1, s2, '.'] ++
            (us ++ (sg :: [z1, z2]))) ++ [z3, z4]).length - 5) =
          sg :: [z1, z2, z3, z4] := by
        rw [hres]
        rw [show ([y1, y2, y3, y4, '-', m1, m2, '-', d1, d2, 'T',
            h1, h2, ':', i1, i2, ':', s1, s2] ++
            ('.' :: (us ++ (sg :: [z1, z2, z3, z4])))) =
            ([y1, y2, y3, y4, '-', m1, m2, '-', d1, d2, 'T',
              h1, h2, ':', i1, i2, ':', s1, s2, '.'] ++ us) ++
            (sg :: [z1, z2, z3, z4]) from by simp [List.append_assoc]]
        rw [show (([y1, y2, y3, y4, '-', m1, m2, '-', d1, d2, 'T',
            h1, h2, ':', i1, i2, ':', s1, s2, '.'] ++ us) ++
            (sg :: [z1, z2, z3, z4])).length - 5 =
            ([y1, y2, y3, y4, '-', m1, m2, '-', d1, d2, 'T',
              h1, h2, ':', i1, i2, ':', s1, s2, '.'] ++ us).length from by
          simp only [List.length_append, List.length_cons, List.length_nil]
          omega]
        exact List.drop_left _ _
      rw [htake, hdrop]
    rw [hslice]
    show strptimeYmdHMSz [y1, y2, y3, y4, '-', m1, m2, '-', d1, d2, 'T',
        h1, h2, ':', i1, i2, ':', s1, s2, sg, z1, z2, z3, z4] = _
    simp only [strptimeYmdHMSz]
    rw [hall, hsgb]
    simp only [Bool.and_self, if_true]
    rw [if_pos ⟨hy, hmo1, hmo2, hd1, hd2, hh, hi, hs, hzm, hzt⟩]

/-- Witness for C5 at a whitespace input and a concrete formatted datetime. -/
theorem C5_witness :
    parse_datetime "   " = .ok epochDateTime ∧
    parse_datetime ⟨['2', '0', '2', '0', '-', '0', '1', '-', '3', '1', 'T',
        '0', '1', ':', '0', '2', ':', '0', '3', '.'] ++
      (['4', '5', '6', '7', '8', '9'] ++ ('+' :: ['0', '5', ':', '3', '0']))⟩ =
      .ok ⟨2020, 1, 31, 1, 2, 3, 330⟩ := by
  constructor
  · exact C5_parse_datetime.1 "   " (by decide)
  · exact (C5_parse_datetime.2 '2' '0' '2' '0' '0' '1' '3' '1' '0' '1' '0' '2' '0' '3'
      '+' '0' '5' '3' '0' ['4', '5', '6', '7', '8', '9'] (by decide) (by decide)
      (by decide) (Or.inl rfl) (by decide) (by decide) (by decide) (by decide)
      (by decide) (by decide) (by decide) (by decide) (by decide) (by decide)).trans
      (by decide)

/-! ### C1: user_columns discovery -/

/-- Every entry of the accumulated `user_columns` either was already present
or stems from a decoded non-`SystemDefined` attribute. -/
theorem attrLoop_mem {es : List AttrElement} : ∀ {attrs0 : List Attribute}
    {uc0 : List (String × Column)} {attrsF : List Attribute}
    {ucF : List (String × Column)},
    attrLoop es attrs0 uc0 = .ok (attrsF, ucF) →
    ∀ p ∈ ucF, p ∈ uc0 ∨ ∃ e ∈ es, ∃ a, Attribute.from_xml e = .ok a ∧
      a.attribute_type ≠ .SystemDefined ∧ ∃ c, Column.from_attribute a = .ok c ∧
      p = (c.name, c) := by
  induction es with
  | nil =>
      intro attrs0 uc0 attrsF ucF h p hp
      have h2 : (attrs0, uc0) = (attrsF, ucF) := Except.ok.inj h
      have h3 : uc0 = ucF := by
        have := congrArg Prod.snd h2
        simpa using this
      exact Or.inl (h3 ▸ hp)
  | cons e rest ih =>
      intro attrs0 uc0 attrsF ucF h p hp
      unfold attrLoop at h
      cases ha : Attribute.from_xml e with
      | error err => rw [ha, except_bind_error] at h; exact Except.noConfusion h
      | ok a =>
      rw [ha, except_bind_ok] at h
      by_cases ht : a.attribute_type ≠ AttributeType.SystemDefined
      · rw [if_pos ht] at h
        cases hc : Column.from_attribute a with
        | error err => rw [hc, except_bind_error] at h; exact Except.noConfusion h
        | ok c =>
        rw [hc, except_bind_ok] at h
        rcases ih h p hp with hin | ⟨e', he', a', ha', ht', c', hc', hp'⟩
        · rcases mem_dInsert hin with hpc | hin0
          · exact Or.inr ⟨e, List.mem_cons_self e rest, a, ha, ht, c, hc, hpc⟩
          · exact Or.inl hin0
        · exact Or.inr ⟨e', List.mem_cons_of_mem _ he', a', ha', ht', c', hc', hp'⟩
      · rw [if_neg ht] at h
        rcases ih h p hp with hin | ⟨e', he', a', ha', ht', c', hc', hp'⟩
        · exact Or.inl hin
        · exact Or.inr ⟨e', List.mem_cons_of_mem _ he', a', ha', ht', c', hc', hp'⟩

/-- Keys present in the accumulator survive the loop, and every decoded
non-`SystemDefined` attribute ends up with its derived column's key present. -/
theorem attrLoop_lookup {es : List AttrElement} : ∀ {attrs0 : List Attribute}
    {uc0 : List (String × Column)} {attrsF : List Attribute}
    {ucF : List (String × Column)},
    attrLoop es attrs0 uc0 = .ok (attrsF, ucF) →
    (∀ k, (dLookup k uc0).isSome → (dLookup k ucF).isSome) ∧
    (∀ e ∈ es, ∀ a, Attribute.from_xml e = .ok a →
      a.attribute_type ≠ .SystemDefined →
      ∃ c, Column.from_attribute a = .ok c ∧ (dLookup c.name ucF).isSome) := by
  induction es with
  | nil =>
      intro attrs0 uc0 attrsF ucF h
      have h2 : (attrs0, uc0) = (attrsF, ucF) := Except.ok.inj h
      have h3 : uc0 = ucF := by
        have := congrArg Prod.snd h2
        simpa using this
      rw [← h3]
      exact ⟨fun k hk => hk, fun e he => absurd he (List.not_mem_nil e)⟩
  | cons e rest ih =>
      intro attrs0 uc0 attrsF ucF h
      unfold attrLoop at h
      cases ha : Attribute.from_xml e with
      | error err => rw [ha, except_bind_error] at h; exact Except.noConfusion h
      | ok a =>
      rw [ha, except_bind_ok] at h
      by_cases ht : a.attribute_type ≠ AttributeType.SystemDefined
      · rw [if_pos ht] at h
        cases hc : Column.from_attribute a with
        | error err => rw [hc, except_bind_error] at h; exact Except.noConfusion h
        | ok c =>
        rw [hc, except_bind_ok] at h
        obtain ⟨ihmono, ihcov⟩ := ih h
        refine ⟨fun k hk => ihmono k (dLookup_isSome_dInsert c.name c hk), ?_⟩
        intro e' he' a' ha' ht'
        rcases List.mem_cons.mp he' with rfl | he2
        · have haa : a' = a := (Except.ok.inj (ha.symm.trans ha')).symm
          subst haa
          exact ⟨c, hc, ihmono c.name (by rw [dLookup_dInsert_self]; rfl)⟩
        · exact ihcov e' he2 a' ha' ht'
      · rw [if_neg ht] at h
        obtain ⟨ihmono, ihcov⟩ := ih h
        refine ⟨ihmono, ?_⟩
        intro e' he' a' ha' ht'
        rcases List.mem_cons.mp he' with rfl | he2
        · have haa : a' = a := (Except.ok.inj (ha.symm.trans ha')).symm
          subst haa
          exact absurd ht' ht
        · exact ihcov e' he2 a' ha' ht'

/-- If every decoded attribute is `SystemDefined`, the loop adds nothing. -/
theorem attrLoop_all_system {es : List AttrElement} : ∀ {attrs0 : List Attribute}
    {uc0 : List (String × Column)} {attrsF : List Attribute}
    {ucF : List (String × Column)},
    attrLoop es attrs0 uc0 = .ok (attrsF, ucF) →
    (∀ e ∈ es, ∀ a, Attribute.from_xml e = .ok a →
      a.attribute_type = .SystemDefined) →
    ucF = uc0 := by
  induction es with
  | nil =>
      intro attrs0 uc0 attrsF ucF h hsd
      have h2 : (attrs0, uc0) = (attrsF, ucF) := Except.ok.inj h
      exact (congrArg Prod.snd h2).symm
  | cons e rest ih =>
      intro attrs0 uc0 attrsF ucF h hsd
      unfold attrLoop at h
      cases ha : Attribute.from_xml e with
      | error err => rw [ha, except_bind_error] at h; exact Except.noConfusion h
      | ok a =>
      rw [ha, except_bind_ok] at h
      have hsda : a.attribute_type = .SystemDefined :=
        hsd e (List.mem_cons_self e rest) a ha
      rw [if_neg (by
        intro hne
        exact hne hsda)] at h
      exact ih h (fun e' he' a' ha' => hsd e' (List.mem_cons_of_mem _ he') a' ha')

/-- The name of a column derived from an attribute. -/
theorem Column.from_attribute_name {a : Attribute} {c : Column}
    (h : Column.from_attribute a = .ok c) :
    c.name = strip_string a.header_name ∧ c.attribute_id = a.attribute_id := by
  unfold Column.from_attribute at h
  exact ⟨(Column.make_ok_fields h).1, (Column.make_ok_fields h).2.1⟩

/-- A decoded attribute's header name is the stripped element text. -/
theorem Attribute.from_xml_header {e : AttrElement} {a : Attribute}
    (h : Attribute.from_xml e = .ok a) :
    a.header_name = strip_string e.HeaderName := by
  unfold Attribute.from_xml at h
  cases h1 : pyIntFromText e.AttributeID with
  | error er => rw [h1, except_bind_error] at h; exact Except.noConfusion h
  | ok aid =>
  rw [h1, except_bind_ok] at h
  cases h2 : pyIntFromText e.AttributeType with
  | error er => rw [h2, except_bind_error] at h; exact Except.noConfusion h
  | ok atInt =>
  rw [h2, except_bind_ok] at h
  cases h3 : AttributeType.ofInt atInt with
  | error er => rw [h3, except_bind_error] at h; exact Except.noConfusion h
  | ok aty =>
  rw [h3, except_bind_ok] at h
  cases h4 : pyIntFromText e.FieldType with
  | error er => rw [h4, except_bind_error] at h; exact Except.noConfusion h
  | ok ft =>
  rw [h4, except_bind_ok] at h
  cases h5 : pyIntFromText e.DataType with
  | error er => rw [h5, except_bind_error] at h; exact Except.noConfusion h
  | ok dt =>
  rw [h5, except_bind_ok] at h
  cases h6 : pyIntFromText e.ReorderID with
  | error er => rw [h6, except_bind_error] at h; exact Except.noConfusion h
  | ok ro =>
  rw [h6, except_bind_ok] at h
  cases h7 : element_to_bool (.str e.ShowHideStatus) with
  | error er => rw [h7, except_bind_error] at h; exact Except.noConfusion h
  | ok shs =>
  rw [h7, except_bind_ok] at h
  cases h8 : pyIntFromText e.ColumnWidth with
  | error er => rw [h8, except_bind_error] at h; exact Except.noConfusion h
  | ok cw =>
  rw [h8, except_bind_ok] at h
  rw [← Except.ok.inj h]

/-- C1: after a successful `Worklist.from_xml`, `user_columns` holds exactly
the columns derived from the decoded non-`SystemDefined` attributes, keyed by
header name: every entry stems from such an attribute, every such attribute
has its header name present, and a file whose attributes are all
`SystemDefined` yields an empty `user_columns`. -/
theorem C1_user_columns (r : WorklistElement) (wl : Worklist)
    (h : Worklist.from_xml r = .ok wl) :
    (∀ n c, (n, c) ∈ wl.user_columns →
      ∃ e ∈ r.WorklistInfo.AttributeInformation, ∃ a,
        Attribute.from_xml e = .ok a ∧ a.attribute_type ≠ .SystemDefined ∧
        Column.from_attribute a = .ok c ∧ n = a.header_name) ∧
    (∀ e ∈ r.WorklistInfo.AttributeInformation, ∀ a,
      Attribute.from_xml e = .ok a → a.attribute_type ≠ .SystemDefined →
      (dLookup a.header_name wl.user_columns).isSome) ∧
    ((∀ e ∈ r.WorklistInfo.AttributeInformation, ∀ a,
      Attribute.from_xml e = .ok a → a.attribute_type = .SystemDefined) →
      wl.user_columns = []) := by
  unfold Worklist.from_xml at h
  cases hv : pyFloatFromText r.Version with
  | error e => rw [hv, except_bind_error] at h; exact Except.noConfusion h
  | ok ver =>
  rw [hv, except_bind_ok] at h
  cases hck : Checksum.from_xml r.Checksum with
  | error e => rw [hck, except_bind_error] at h; exact Except.noConfusion h
  | ok ck =>
  rw [hck, except_bind_ok] at h
  cases hd : decodeLockedRunMode r.WorklistInfo.LockedRunMode with
  | error e => rw [hd, except_bind_error] at h; exact Except.noConfusion h
  | ok b =>
  rw [hd, except_bind_ok] at h
  cases hp : parse_params r.WorklistInfo.Params with
  | error e => rw [hp, except_bind_error] at h; exact Except.noConfusion h
  | ok ps =>
  rw [hp, except_bind_ok] at h
  cases ha : attrLoop r.WorklistInfo.AttributeInformation [] [] with
  | error e => rw [ha, except_bind_error] at h; exact Except.noConfusion h
  | ok auc =>
  rw [ha, except_bind_ok] at h
  obtain ⟨attrs, uc⟩ := auc
  simp only [] at h
  cases hj : r.WorklistInfo.JobDataList.mapM (fun j => JobData.from_xml j uc) with
  | error e => rw [hj, except_bind_error] at h; exact Except.noConfusion h
  | ok jobs =>
  rw [hj, except_bind_ok] at h
  have hwl : (⟨ver, b, r.WorklistInfo.Instrument, ps, uc, jobs, ck⟩ : Worklist) = wl :=
    Except.ok.inj h
  have huc : wl.user_columns = uc := by rw [← hwl]
  have hname : ∀ {e a c}, Attribute.from_xml e = .ok a →
      Column.from_attribute a = .ok c → c.name = a.header_name := by
    intro e a c hxe hca
    rw [(Column.from_attribute_name hca).1, Attribute.from_xml_header hxe,
      strip_string_idem]
  refine ⟨?_, ?_, ?_⟩
  · intro n c hnc
    rw [huc] at hnc
    rcases attrLoop_mem ha (n, c) hnc with hin | ⟨e, he, a, hxe, ht, c', hc', hp'⟩
    · exact absurd hin (List.not_mem_nil _)
    · have hcc : n = c'.name ∧ c = c' := by
        have h1 := congrArg Prod.fst hp'
        have h2 := congrArg Prod.snd hp'
        exact ⟨h1, h2⟩
      obtain ⟨hn, rfl⟩ := hcc
      exact ⟨e, he, a, hxe, ht, hc', by rw [hn, hname hxe hc']⟩
  · intro e he a hxe ht
    obtain ⟨c, hc, hsome⟩ := (attrLoop_lookup ha).2 e he a hxe ht
    rw [huc]
    rw [← hname hxe hc]
    exact hsome
  · intro hall
    rw [huc]
    exact attrLoop_all_system ha hall

/-- Witness for C1 at a concrete root with one user-added attribute. -/
theorem C1_witness :
    Worklist.from_xml sampleRoot = .ok sampleWorklist ∧
    (dLookup sampleUserAttribute.header_name sampleWorklist.user_columns).isSome :=
  ⟨by decide,
    (C1_user_columns sampleRoot sampleWorklist (by decide)).2.1 sampleUserAttrElement
      (by decide) sampleUserAttribute (by decide) (by decide)⟩

/-! ### C10: SampleDataArray matching -/

theorem pyIntFromText_ok_iff {s : String} {n : Int} :
    pyIntFromText s = .ok n ↔ pyParseInt s = some n := by
  constructor
  · intro h
    unfold pyIntFromText at h
    cases hx : pyParseInt s with
    | none => rw [hx] at h; exact Except.noConfusion h
    | some m => rw [hx] at h; exact congrArg some (Except.ok.inj h)
  · intro h
    unfold pyIntFromText
    rw [h]

/-- Keys not in `user_columns` are untouched by the inner loop. -/
theorem sdaInner_frame_key {t : SDAElement} : ∀ {uc : List (String × Column)}
    {si si' : List (String × PyValue)}, sdaInner t uc si = .ok si' →
    ∀ n, n ∉ uc.map Prod.fst → dLookup n si' = dLookup n si := by
  intro uc
  induction uc with
  | nil =>
      intro si si' h n _
      rw [← Except.ok.inj h]
  | cons p rest ih =>
      intro si si' h n hn
      obtain ⟨n₀, c₀⟩ := p
      simp only [List.map_cons, List.mem_cons, not_or] at hn
      obtain ⟨hn0, hnrest⟩ := hn
      unfold sdaInner at h
      cases hp : pyIntFromText t.AttributeID with
      | error er => rw [hp, except_bind_error] at h; exact Except.noConfusion h
      | ok aid =>
      rw [hp, except_bind_ok] at h
      by_cases hm : c₀.attribute_id = aid
      · rw [if_pos hm] at h
        cases hv : c₀.cast_value (.str (strip_string t.DataValue)) with
        | error er => rw [hv, except_bind_error] at h; exact Except.noConfusion h
        | ok v =>
        rw [hv, except_bind_ok] at h
        rw [ih h n hnrest, dLookup_dInsert_ne v si hn0]
      · rw [if_neg hm] at h
        exact ih h n hnrest

/-- A matching `SampleDataArray` element writes the cast value under every
user column whose `attribute_id` matches. -/
theorem sdaInner_match {t : SDAElement} : ∀ {uc : List (String × Column)}
    {si si' : List (String × PyValue)},
    sdaInner t uc si = .ok si' → (uc.map Prod.fst).Nodup →
    ∀ n c, (n, c) ∈ uc → pyParseInt t.AttributeID = some c.attribute_id →
    ∃ v, c.cast_value (.str (strip_string t.DataValue)) = .ok v ∧
      dLookup n si' = some v := by
  intro uc
  induction uc with
  | nil =>
      intro si si' h _ n c hmem _
      exact absurd hmem (List.not_mem_nil _)
  | cons p rest ih =>
      intro si si' h hnd n c hmem hpp
      obtain ⟨n₀, c₀⟩ := p
      simp only [List.map_cons, List.nodup_cons] at hnd
      obtain ⟨hn0, hndr⟩ := hnd
      unfold sdaInner at h
      cases hp : pyIntFromText t.AttributeID with
      | error er => rw [hp, except_bind_error] at h; exact Except.noConfusion h
      | ok aid =>
      rw [hp, except_bind_ok] at h
      have haid : pyParseInt t.AttributeID = some aid := pyIntFromText_ok_iff.mp hp
      rcases List.mem_cons.mp hmem with heq | hmem'
      · simp only [Prod.mk.injEq] at heq
        obtain ⟨rfl, rfl⟩ := heq
        have hmatch : c.attribute_id = aid :=
          Option.some.inj (hpp.symm.trans haid)
        rw [if_pos hmatch] at h
        cases hv : c.cast_value (.str (strip_string t.DataValue)) with
        | error er => rw [hv, except_bind_error] at h; exact Except.noConfusion h
        | ok v =>
        rw [hv, except_bind_ok] at h
        refine ⟨v, rfl, ?_⟩
        rw [sdaInner_frame_key h n hn0, dLookup_dInsert_self]
      · by_cases hm : c₀.attribute_id = aid
        · rw [if_pos hm] at h
          cases hv : c₀.cast_value (.str (strip_string t.DataValue)) with
          | error er => rw [hv, except_bind_error] at h; exact Except.noConfusion h
          | ok v =>
          rw [hv, except_bind_ok] at h
          exact ih h hndr n c hmem' hpp
        · rw [if_neg hm] at h
          exact ih h hndr n c hmem' hpp

/-- A non-matching element leaves a user column's key unchanged. -/
theorem sdaInner_nomatch {t : SDAElement} : ∀ {uc : List (String × Column)}
    {si si' : List (String × PyValue)},
    sdaInner t uc si = .ok si' → (uc.map Prod.fst).Nodup →
    ∀ n c, (n, c) ∈ uc → pyParseInt t.AttributeID ≠ some c.attribute_id →
    dLookup n si' = dLookup n si := by
  intro uc
  induction uc with
  | nil =>
      intro si si' h _ n c hmem _
      exact absurd hmem (List.not_mem_nil _)
  | cons p rest ih =>
      intro si si' h hnd n c hmem hne
      obtain ⟨n₀, c₀⟩ := p
      simp only [List.map_cons, List.nodup_cons] at hnd
      obtain ⟨hn0, hndr⟩ := hnd
      unfold sdaInner at h
      cases hp : pyIntFromText t.AttributeID with
      | error er => rw [hp, except_bind_error] at h; exact Except.noConfusion h
      | ok aid =>
      rw [hp, except_bind_ok] at h
      have haid : pyParseInt t.AttributeID = some aid := pyIntFromText_ok_iff.mp hp
      rcases List.mem_cons.mp hmem with heq | hmem'
      · simp only [Prod.mk.injEq] at heq
        obtain ⟨rfl, rfl⟩ := heq
        have hm : ¬(c.attribute_id = aid) := fun hx => hne (by rw [haid, hx])
        rw [if_neg hm] at h
        exact sdaInner_frame_key h n hn0
      · have hnn : n ≠ n₀ := by
          intro hx
          subst hx
          exact hn0 (List.mem_map.mpr ⟨(n, c), hmem', rfl⟩)
        by_cases hm : c₀.attribute_id = aid
        · rw [if_pos hm] at h
          cases hv : c₀.cast_value (.str (strip_string t.DataValue)) with
          | error er => rw [hv, except_bind_error] at h; exact Except.noConfusion h
          | ok v =>
          rw [hv, except_bind_ok] at h
          rw [ih h hndr n c hmem' hne, dLookup_dInsert_ne v si hnn]
        · rw [if_neg hm] at h
          exact ih h hndr n c hmem' hne

theorem lastMatch_none {c : Column} : ∀ (l : List SDAElement),
    lastMatch c l = Option.none →
    ∀ t ∈ l, pyParseInt t.AttributeID ≠ some c.attribute_id := by
  intro l
  induction l with
  | nil =>
      intro _ t ht
      exact absurd ht (List.not_mem_nil t)
  | cons t0 rest ih =>
      intro h t ht
      unfold lastMatch at h
      cases hlm : lastMatch c rest with
      | some u => rw [hlm] at h; exact Option.noConfusion h
      | none =>
          rw [hlm] at h
          rcases List.mem_cons.mp ht with rfl | ht'
          · intro hx
            rw [if_pos hx] at h
            exact Option.noConfusion h
          · exact ih hlm t ht'

theorem sdaLoop_frame : ∀ {tags : List SDAElement} {uc : List (String × Column)}
    {si si' : List (String × PyValue)},
    sdaLoop tags uc si = .ok si' → (uc.map Prod.fst).Nodup →
    ∀ n c, (n, c) ∈ uc →
    (∀ t ∈ tags, pyParseInt t.AttributeID ≠ some c.attribute_id) →
    dLookup n si' = dLookup n si := by
  intro tags
  induction tags with
  | nil =>
      intro uc si si' h _ n c _ _
      rw [← Except.ok.inj h]
  | cons t0 rest ih =>
      intro uc si si' h hnd n c hmem hno
      unfold sdaLoop at h
      cases h1 : sdaInner t0 uc si with
      | error er => rw [h1, except_bind_error] at h; exact Except.noConfusion h
      | ok si₁ =>
      rw [h1, except_bind_ok] at h
      rw [ih h hnd n c hmem (fun t ht => hno t (List.mem_cons_of_mem _ ht))]
      exact sdaInner_nomatch h1 hnd n c hmem (hno t0 (List.mem_cons_self t0 rest))

/-- The outer loop: the last matching element in document order determines
each matching user column's final value. -/
theorem sdaLoop_lookup : ∀ {tags : List SDAElement} {uc : List (String × Column)}
    {si si' : List (String × PyValue)},
    sdaLoop tags uc si = .ok si' → (uc.map Prod.fst).Nodup →
    ∀ n c, (n, c) ∈ uc → ∀ t, lastMatch c tags = some t →
    ∃ v, c.cast_value (.str (strip_string t.DataValue)) = .ok v ∧
      dLookup n si' = some v := by
  intro tags
  induction tags with
  | nil =>
      intro uc si si' h _ n c _ t hlm
      exact Option.noConfusion hlm
  | cons t0 rest ih =>
      intro uc si si' h hnd n c hmem t hlm
      unfold sdaLoop at h
      cases h1 : sdaInner t0 uc si with
      | error er => rw [h1, except_bind_error] at h; exact Except.noConfusion h
      | ok si₁ =>
      rw [h1, except_bind_ok] at h
      unfold lastMatch at hlm
      cases hl : lastMatch c rest with
      | some u =>
          rw [hl] at hlm
          rw [Option.some.inj hlm] at hl
          exact ih h hnd n c hmem t hl
      | none =>
          rw [hl] at hlm
          by_cases hm : pyParseInt t0.AttributeID = some c.attribute_id
          · rw [if_pos hm] at hlm
            have ht0 : t0 = t := Option.some.inj hlm
            subst ht0
            obtain ⟨v, hv, hlook⟩ := sdaInner_match h1 hnd n c hmem hm
            refine ⟨v, hv, ?_⟩
            rw [sdaLoop_frame h hnd n c hmem (lastMatch_none rest hl), hlook]
          · rw [if_neg hm] at hlm
            exact Option.noConfusion hlm

/-- C10: in `parse_sample_info`, every user column whose `attribute_id`
matches a `SampleDataArray` element's `AttributeID` receives that element's
cast `DataValue` under its display name (columns sharing an id are all
populated), and with several matching elements the last one in document order
wins. -/
theorem C10_sample_data_array (e : SampleInfoElement) (uc : List (String × Column))
    (si : List (String × PyValue)) (hnd : (uc.map Prod.fst).Nodup)
    (h : parse_sample_info e uc = .ok si) :
    ∀ n c, (n, c) ∈ uc → ∀ t, lastMatch c e.sampleDataArrays = some t →
      ∃ v, c.cast_value (.str (strip_string t.DataValue)) = .ok v ∧
        dLookup n si = some v := by
  unfold parse_sample_info at h
  cases h1 : parse_datetime e.AcqTime with
  | error er => rw [h1, except_bind_error] at h; exact Except.noConfusion h
  | ok acq =>
  rw [h1, except_bind_ok] at h
  cases h2 : element_to_bool (.str e.SampleLockedRunMode) with
  | error er => rw [h2, except_bind_error] at h; exact Except.noConfusion h
  | ok slrm =>
  rw [h2, except_bind_ok] at h
  cases h3 : element_to_bool (.str e.RunCompletedFlag) with
  | error er => rw [h3, except_bind_error] at h; exact Except.noConfusion h
  | ok rc =>
  rw [h3, except_bind_ok] at h
  cases h4 : staticTagLoop sample_info_tags e
      (dInsert "Label" (.str (strip_string e.Label))
        (dInsert "Run Completed" (.bool rc)
          (dInsert "Sample Locked Run Mode" (.bool slrm)
            (dInsert "Acquired Time" (.datetime acq) [])))) with
  | error er => rw [h4, except_bind_error] at h; exact Except.noConfusion h
  | ok si₁ =>
  rw [h4, except_bind_ok] at h
  exact sdaLoop_lookup h hnd

/-- Witness for C10: two user columns sharing `attribute_id` 100 are both
populated, and the later of two matching elements wins. -/
theorem C10_witness :
    parse_sample_info sampleSampleInfoElement sampleUC = .ok sampleSampleInfo ∧
    (∃ v, sampleColumnA.cast_value (.str (strip_string "v2")) = .ok v ∧
      dLookup "ColA" sampleSampleInfo = some v) :=
  ⟨by decide,
    C10_sample_data_array sampleSampleInfoElement sampleUC sampleSampleInfo
      (by decide) (by decide) "ColA" sampleColumnA (by decide)
      ⟨"100", "v2"⟩ (by decide)⟩

end MhUtils
